import Mathlib

/-!
Shutter keyper node: padding, event decoding, queries, snapshots, nonce batching.

A shallow embedding of parts of `shuttermint` together with theorems about them.

* `Shutter.Shcrypto`: message padding (`PadMessage`, `UnpadMessage`).
* `Shutter.Strconv`: the semantics of Go's `strconv.Atoi` on a 64-bit platform.
* `Shutter.Keyper`: event decoding (`events.go`), snapshot load and save (`keyper2.go`).
* `Shutter.App`: the query handler (`queries.go`).
* `Shutter.Txbatch`: nonce batching (`txbatch.go`).

Conventions: Go byte strings and `string`s are embedded as Lean `String`s or `List UInt8`;
machine integers are `Nat`/`Int` with explicit reduction modulo `2^w` at every conversion;
functions returning `(value, error)` return `Except`.
-/

/-- Decidable equality of results, so that concrete evaluations can be checked by `decide`. -/
instance instDecidableEqExcept {ε α : Type} [DecidableEq ε] [DecidableEq α] :
    DecidableEq (Except ε α)
  | .ok a, .ok b =>
    if h : a = b then isTrue (by rw [h]) else isFalse (fun h' => h (Except.ok.inj h'))
  | .error a, .error b =>
    if h : a = b then isTrue (by rw [h]) else isFalse (fun h' => h (Except.error.inj h'))
  | .ok _, .error _ => isFalse (fun h => Except.noConfusion h)
  | .error _, .ok _ => isFalse (fun h => Except.noConfusion h)

/-! ## Definitions -/

namespace Shutter.Shcrypto

/-- The block size in bytes (`BlockSize`, used by `encryption_test.go` as `sigma[BlockSize-1]`
and as the literal `32`). -/
def BlockSize : Nat := 32

/-- A `Block` is a Go `[32]byte` array: exactly `BlockSize` bytes. -/
structure Block where
  bytes : List UInt8
  size_eq : bytes.length = BlockSize
deriving DecidableEq

/-- Filling a zeroed `[32]byte` array with `copy(b[:], bs)`, as the tests build a `Block`:
the first 32 bytes of `bs`, zero-filled when `bs` is shorter. -/
def mkBlock (bs : List UInt8) : Block :=
  ⟨bs.take BlockSize ++ List.replicate (BlockSize - bs.length) 0, by
    simp [BlockSize]; omega⟩

/-- The first `n` consecutive 32-byte blocks of `m`. -/
def fullBlocks : Nat → List UInt8 → List Block
  | 0, _ => []
  | n + 1, m => mkBlock (m.take BlockSize) :: fullBlocks n (m.drop BlockSize)

/-- Modelled from the spec: `PadMessage` lives in `shcrypto/encryption.go`, which is not among
the sources (only its test `encryption_test.go` is). Spec 4.3: "split into 32-byte blocks; if
message length is an exact multiple of 32, append one block of value 32 repeated 32 times;
otherwise the final partial block is filled with value (32 - remainder) repeated for the missing
bytes." -/
def PadMessage (m : List UInt8) : List Block :=
  let q := m.length / BlockSize
  let r := m.length % BlockSize
  if r = 0 then
    fullBlocks q m ++ [mkBlock (List.replicate BlockSize (UInt8.ofNat BlockSize))]
  else
    fullBlocks q m ++
      [mkBlock (m.drop (BlockSize * q) ++
        List.replicate (BlockSize - r) (UInt8.ofNat (BlockSize - r)))]

/-- The `CryptoError` kinds of spec section 7 that padding can raise. -/
inductive CryptoError where
  | InvalidPadding
deriving DecidableEq, Repr

/-- Modelled from the spec: `UnpadMessage` lives in `shcrypto/encryption.go`, which is not among
the sources. Spec 4.3: "fails with InvalidPadding unless the last block's value v is in [1,32],
the last v bytes of the last block all equal v"; the data returned is every block before the last
followed by the first `32 - v` bytes of the last block, so that a lone all-32 block yields the
empty message. The spec names no last block for an empty list; the model fails there. -/
def UnpadMessage (blocks : List Block) : Except CryptoError (List UInt8) :=
  match blocks.getLast? with
  | none => .error .InvalidPadding
  | some last =>
    let v := (last.bytes.getLastD 0).toNat
    if v = 0 ∨ BlockSize < v then .error .InvalidPadding
    else if last.bytes.drop (BlockSize - v) ≠ List.replicate v (UInt8.ofNat v) then
      .error .InvalidPadding
    else .ok ((blocks.dropLast.map Block.bytes).flatten ++ last.bytes.take (BlockSize - v))

end Shutter.Shcrypto

namespace Shutter.Strconv

/-- The two error kinds of `strconv.NumError`. -/
inductive NumError where
  | ErrSyntax
  | ErrRange
deriving DecidableEq, Repr

/-- The size in bits of Go's `int` (`strconv.IntSize`) on a 64-bit platform. -/
def IntSize : Nat := 64

/-- The value of a decimal digit character, `none` for any other character. -/
def digitVal (c : Char) : Option Nat :=
  if 48 ≤ c.toNat ∧ c.toNat ≤ 57 then some (c.toNat - 48) else none

/-- The digit loop of `strconv.ParseUint(s, 10, 64)`: a non-digit is a syntax error, a value
that leaves the `uint64` range is a range error, whichever comes first from the left. -/
def parseUint : List Char → Nat → Except NumError Nat
  | [], n => .ok n
  | c :: cs, n =>
    match digitVal c with
    | none => .error .ErrSyntax
    | some d => if 2 ^ 64 ≤ n * 10 + d then .error .ErrRange else parseUint cs (n * 10 + d)

/-- The semantics of `strconv.Atoi`: an optional sign, then at least one decimal digit and nothing
else; the value must fit `int`. -/
def Atoi (s : String) : Except NumError Int :=
  let neg : Bool := s.data.head? = some '-'
  let ds := if s.data.head? = some '+' ∨ s.data.head? = some '-' then s.data.tail else s.data
  if ds = [] then .error .ErrSyntax
  else
    match parseUint ds 0 with
    | .error e => .error e
    | .ok n =>
      if neg then (if n ≤ 2 ^ (IntSize - 1) then .ok (-(n : Int)) else .error .ErrRange)
      else (if n < 2 ^ (IntSize - 1) then .ok (n : Int) else .error .ErrRange)

/-- The conversion `uint64(x)` of an `int`. -/
def toUint64 (x : Int) : Nat := (x % 2 ^ 64).toNat

/-- The conversion `uint32(x)` of an `int`. -/
def toUint32 (x : Int) : Nat := (x % 2 ^ 32).toNat

end Shutter.Strconv

namespace Shutter.Keyper

open Shutter.Strconv

/-- One attribute of a tendermint event (`abcitypes.EventAttribute`): a key and a value. -/
structure EventAttribute where
  Key : String
  Value : String
deriving DecidableEq, Repr

/-- A tendermint event (`abcitypes.Event`); `Typ` is the Go field `Type`. -/
structure Event where
  Typ : String
  Attributes : List EventAttribute
deriving DecidableEq, Repr

/-- The decoders of package `app` that `events.go` calls and whose code is not among the sources,
with the types they produce. `DecodeAddressesFromEvent` has no error result. -/
structure AppCodec where
  PrivKey : Type
  PubKey : Type
  Address : Type
  DecodeErr : Type
  DecodePrivkeyFromEvent : String → Except DecodeErr PrivKey
  DecodePubkeyFromEvent : String → Except DecodeErr PubKey
  DecodeAddressesFromEvent : String → List Address

/-- The event `PrivkeyGeneratedEvent{BatchIndex uint64, Privkey}`. -/
structure PrivkeyGeneratedEvent (app : AppCodec) where
  BatchIndex : Nat
  Privkey : app.PrivKey

/-- The event `PubkeyGeneratedEvent{BatchIndex uint64, Pubkey}`. -/
structure PubkeyGeneratedEvent (app : AppCodec) where
  BatchIndex : Nat
  Pubkey : app.PubKey

/-- The event `BatchConfigEvent{StartBatchIndex uint64, Threshold uint32, Keypers}`. -/
structure BatchConfigEvent (app : AppCodec) where
  StartBatchIndex : Nat
  Threshold : Nat
  Keypers : List app.Address

/-- The interface `IEvent`, as the sum of the three event variants `MakeEvent` returns. -/
inductive IEvent (app : AppCodec) where
  | privkeyGenerated (e : PrivkeyGeneratedEvent app)
  | pubkeyGenerated (e : PubkeyGeneratedEvent app)
  | batchConfig (e : BatchConfigEvent app)

/-- The event type string that names a variant. -/
def IEvent.typeName {app : AppCodec} : IEvent app → String
  | .privkeyGenerated _ => "shutter.privkey-generated"
  | .pubkeyGenerated _ => "shutter.pubkey-generated"
  | .batchConfig _ => "shutter.batch-config"

/-- The errors of `events.go`: `notEnoughAttributes` is
`"Event contains not enough attributes: %+v"`, `badEventAttributes` is
`"Bad event attributes: %+v"`, `cannotMakeEvent` is `"Cannot make event from %+v"`; `atoi` and
`decode` pass on the error of `strconv.Atoi` and of a decoder of package `app`. -/
inductive EventError (app : AppCodec) where
  | notEnoughAttributes (ev : Event)
  | badEventAttributes (ev : Event)
  | atoi (e : NumError)
  | decode (e : app.DecodeErr)
  | cannotMakeEvent (ev : Event)

/-- `MakePrivkeyGeneratedEvent` of `events.go`. -/
def MakePrivkeyGeneratedEvent (app : AppCodec) (ev : Event) :
    Except (EventError app) (PrivkeyGeneratedEvent app) :=
  if h : ev.Attributes.length < 2 then .error (.notEnoughAttributes ev)
  else
    have h0 : 0 < ev.Attributes.length := by omega
    have h1 : 1 < ev.Attributes.length := by omega
    if ev.Attributes[0].Key ≠ "BatchIndex" ∨ ev.Attributes[1].Key ≠ "Privkey" then
      .error (.badEventAttributes ev)
    else
      match Atoi ev.Attributes[0].Value with
      | .error e => .error (.atoi e)
      | .ok b =>
        match app.DecodePrivkeyFromEvent ev.Attributes[1].Value with
        | .error e => .error (.decode e)
        | .ok privkey => .ok ⟨toUint64 b, privkey⟩

/-- `MakePubkeyGeneratedEvent` of `events.go`. -/
def MakePubkeyGeneratedEvent (app : AppCodec) (ev : Event) :
    Except (EventError app) (PubkeyGeneratedEvent app) :=
  if h : ev.Attributes.length < 2 then .error (.notEnoughAttributes ev)
  else
    have h0 : 0 < ev.Attributes.length := by omega
    have h1 : 1 < ev.Attributes.length := by omega
    if ev.Attributes[0].Key ≠ "BatchIndex" ∨ ev.Attributes[1].Key ≠ "Pubkey" then
      .error (.badEventAttributes ev)
    else
      match Atoi ev.Attributes[0].Value with
      | .error e => .error (.atoi e)
      | .ok b =>
        match app.DecodePubkeyFromEvent ev.Attributes[1].Value with
        | .error e => .error (.decode e)
        | .ok pubkey => .ok ⟨toUint64 b, pubkey⟩

/-- `MakeBatchConfigEvent` of `events.go`. -/
def MakeBatchConfigEvent (app : AppCodec) (ev : Event) :
    Except (EventError app) (BatchConfigEvent app) :=
  if h : ev.Attributes.length < 3 then .error (.notEnoughAttributes ev)
  else
    have h0 : 0 < ev.Attributes.length := by omega
    have h1 : 1 < ev.Attributes.length := by omega
    have h2 : 2 < ev.Attributes.length := by omega
    if ev.Attributes[0].Key ≠ "StartBatchIndex" ∨ ev.Attributes[1].Key ≠ "Threshold" ∨
        ev.Attributes[2].Key ≠ "Keypers" then
      .error (.badEventAttributes ev)
    else
      match Atoi ev.Attributes[0].Value with
      | .error e => .error (.atoi e)
      | .ok b =>
        match Atoi ev.Attributes[1].Value with
        | .error e => .error (.atoi e)
        | .ok threshold =>
          .ok ⟨toUint64 b, toUint32 threshold,
            app.DecodeAddressesFromEvent ev.Attributes[2].Value⟩

/-- `MakeEvent` of `events.go`: dispatch on the event's type. -/
def MakeEvent (app : AppCodec) (ev : Event) : Except (EventError app) (IEvent app) :=
  if ev.Typ = "shutter.privkey-generated" then
    match MakePrivkeyGeneratedEvent app ev with
    | .error err => .error err
    | .ok res => .ok (.privkeyGenerated res)
  else if ev.Typ = "shutter.pubkey-generated" then
    match MakePubkeyGeneratedEvent app ev with
    | .error err => .error err
    | .ok res => .ok (.pubkeyGenerated res)
  else if ev.Typ = "shutter.batch-config" then
    match MakeBatchConfigEvent app ev with
    | .error err => .error err
    | .ok res => .ok (.batchConfig res)
  else .error (.cannotMakeEvent ev)

/-- The attribute keys the specification requires for each event type, position by position;
`none` for a type that is none of the three. Follows the wording of the specification, to be
compared with `MakeEvent`. -/
def specRequiredKeys (typ : String) : Option (List String) :=
  if typ = "shutter.privkey-generated" then some ["BatchIndex", "Privkey"]
  else if typ = "shutter.pubkey-generated" then some ["BatchIndex", "Pubkey"]
  else if typ = "shutter.batch-config" then some ["StartBatchIndex", "Threshold", "Keypers"]
  else none

/-- A codec with string keys and comma-free addresses, to evaluate the decoders at concrete
events. -/
def exampleCodec : AppCodec where
  PrivKey := String
  PubKey := String
  Address := String
  DecodeErr := Unit
  DecodePrivkeyFromEvent := fun s => .ok s
  DecodePubkeyFromEvent := fun s => .ok s
  DecodeAddressesFromEvent := fun s => [s]

end Shutter.Keyper

namespace Shutter.App

open Shutter.Strconv

/-- The fields of Go's `url.URL` that `Query` reads. `User` is the rendering `User.String()`,
which is `""` for an absent (`nil`) user. -/
structure URL where
  Scheme : String
  Opaque : String
  User : String
  Host : String
  Path : String
  RawQuery : String
  Fragment : String
deriving DecidableEq, Repr

/-- Go's `url.Values`, a `map[string][]string`: the values given for each key. -/
abbrev Values := String → List String

/-- `url.Values.Get`: the first value of the key, `""` when there is none. -/
def Values.Get (vs : Values) (key : String) : String :=
  match vs key with
  | [] => ""
  | v :: _ => v

/-- The field of `abcitypes.RequestQuery` that `Query` reads. -/
structure RequestQuery where
  Path : String
deriving DecidableEq, Repr

/-- The fields of `abcitypes.ResponseQuery` that `Query` sets; the others keep their zero
value. `Value = []` is the absent (`nil`) value. -/
structure ResponseQuery where
  Code : Nat
  Log : String
  Value : List UInt8
deriving DecidableEq, Repr

/-- What `queries.go` calls and is not among the sources: the library functions `url.Parse`
and `(*URL).Query`, the application's `getConfig` (on a `uint64`), `BatchConfig.Message` and
`proto.Marshal`. -/
structure ShutterApp where
  Config : Type
  ConfigMsg : Type
  urlParse : String → Except String URL
  urlQuery : URL → Values
  getConfig : Nat → Config
  Message : Config → ConfigMsg
  protoMarshal : ConfigMsg → Except String (List UInt8)

/-- `makeQueryErrorResponse` of `queries.go`. -/
def makeQueryErrorResponse (msg : String) : ResponseQuery :=
  { Code := 1, Log := msg, Value := [] }

/-- `ShutterApp.queryBatchConfig` of `queries.go`. The second component of the result lists the
indices `getConfig` was called with, in order. -/
def queryBatchConfig (app : ShutterApp) (vs : Values) : ResponseQuery × List Nat :=
  let batchIndexStr := vs.Get "batchIndex"
  if batchIndexStr = "" then (makeQueryErrorResponse "missing batch index parameter", [])
  else
    match Atoi batchIndexStr with
    | .error _ => (makeQueryErrorResponse "batch index not valid integer", [])
    | .ok batchIndex =>
      if batchIndex < 0 then (makeQueryErrorResponse "batch index not valid integer", [])
      else
        let config := app.getConfig (toUint64 batchIndex)
        let configMsg := app.Message config
        match app.protoMarshal configMsg with
        | .error _ => (makeQueryErrorResponse "error encoding message", [toUint64 batchIndex])
        | .ok configBytes =>
          ({ Code := 0, Log := "", Value := configBytes }, [toUint64 batchIndex])

/-- `ShutterApp.Query` of `queries.go`, with the trace of `getConfig` calls. -/
def Query (app : ShutterApp) (req : RequestQuery) : ResponseQuery × List Nat :=
  match app.urlParse req.Path with
  | .error _ => (makeQueryErrorResponse "invalid request url", [])
  | .ok requestURL =>
    if requestURL.Scheme ≠ "" ∨ requestURL.Opaque ≠ "" ∨ requestURL.User ≠ "" ∨
        requestURL.Host ≠ "" ∨ requestURL.Fragment ≠ "" then
      (makeQueryErrorResponse "invalid request url", [])
    else if requestURL.Path = "/configs/" then
      queryBatchConfig app (app.urlQuery requestURL)
    else (makeQueryErrorResponse "unknown method", [])

/-- An application to evaluate `Query` at concrete requests: configurations and messages are
numbers, `getConfig n = n`, a message is serialized as its decimal digits; the URL reader splits
`path?key=value` at the first `?` and the query reader at the first `=`, which is what
`url.Parse` and `(*URL).Query` return for a request of that shape made of letters, digits, `/`
and `-`. -/
def exampleApp : ShutterApp where
  Config := Nat
  ConfigMsg := Nat
  urlParse := fun s =>
    .ok { Scheme := "", Opaque := "", User := "", Host := "", Fragment := "",
          Path := String.mk (s.data.takeWhile (fun c => c != '?')),
          RawQuery := String.mk ((s.data.dropWhile (fun c => c != '?')).drop 1) }
  urlQuery := fun u key =>
    if String.mk (u.RawQuery.data.takeWhile (fun c => c != '=')) = key then
      [String.mk ((u.RawQuery.data.dropWhile (fun c => c != '=')).drop 1)]
    else []
  getConfig := fun n => n
  Message := fun c => c
  protoMarshal := fun m => .ok ((toString m).data.map (fun c => UInt8.ofNat c.toNat))

end Shutter.App

namespace Shutter.Keyper

/-- The file system as explicit state: the content of the file at each path, `none` where there
is no file. -/
abbrev FileSystem := String → Option (List UInt8)

/-- The file system after the file at `p` got the content `c`. -/
def FileSystem.write (fs : FileSystem) (p : String) (c : List UInt8) : FileSystem :=
  fun q => if q = p then some c else fs q

/-- The file system after a successful `os.Rename(old, new)`: `new` has the content of `old`,
and `old` is gone. -/
def FileSystem.rename (fs : FileSystem) (old new : String) : FileSystem :=
  fun q => if q = new then fs old else if q = old then none else fs q

/-- The calls `saveState` makes on files, in the order it makes them. -/
inductive FileOp where
  | create (p : String)
  | write (p : String) (c : List UInt8)
  | sync (p : String)
  | rename (old new : String)
  | close (p : String)
deriving DecidableEq, Repr

/-- The field of `KeyperConfig` that the snapshot code reads. -/
structure KeyperConfig where
  DBDir : String
deriving DecidableEq, Repr

/-- The fields of `Keyper2` that the snapshot code reads and writes, and `Interactive`. The types
`State`, `observe.Shutter` and `observe.MainChain` are declared outside the sources and are
parameters. -/
structure Keyper2 (σ sh mc : Type) where
  Config : KeyperConfig
  State : σ
  Shutter : sh
  MainChain : mc
  Interactive : Bool

/-- The snapshot `storedState` of `keyper2.go`. -/
structure storedState (σ sh mc : Type) where
  State : σ
  Shutter : sh
  MainChain : mc

/-- The library functions the snapshot code calls: `filepath.Join`, the gob encoding of a
snapshot (its complete byte sequence) and the gob decoder. -/
structure SnapshotLib (σ sh mc ε : Type) where
  filepathJoin : String → String → String
  gobEncode : storedState σ sh mc → List UInt8
  gobDecode : List UInt8 → Except ε (storedState σ sh mc)

/-- `Keyper2.gobpath` of `keyper2.go`. -/
def Keyper2.gobpath {σ sh mc ε : Type} (lib : SnapshotLib σ sh mc ε) (kpr : Keyper2 σ sh mc) :
    String :=
  lib.filepathJoin kpr.Config.DBDir "state.gob"

/-- What `os.Open` answers: an error for which `os.IsNotExist` holds, another error, or the file
it opened, given by its content. -/
inductive OpenResult (ε : Type) where
  | notExist (err : ε)
  | failed (err : ε)
  | opened (content : List UInt8)

/-- `Keyper2.LoadState` of `keyper2.go`: the error returned (`none` for `nil`) and the keyper
afterwards. -/
def Keyper2.LoadState {σ sh mc ε : Type} (lib : SnapshotLib σ sh mc ε)
    (osOpen : String → OpenResult ε) (kpr : Keyper2 σ sh mc) : Option ε × Keyper2 σ sh mc :=
  let gobpath := kpr.gobpath lib
  match osOpen gobpath with
  | .notExist _ => (none, kpr)
  | .failed err => (some err, kpr)
  | .opened gobfile =>
    match lib.gobDecode gobfile with
    | .error err => (some err, kpr)
    | .ok st =>
      (none, { kpr with State := st.State, Shutter := st.Shutter, MainChain := st.MainChain })

/-- What the operating system and the encoder answer during one `saveState`: the error of
`os.Create`, of `enc.Encode` (with the bytes that had reached the file when it failed), of
`file.Sync` and of `os.Rename`; `none` where the call succeeds. -/
structure SaveOutcome (ε : Type) where
  create : Option ε
  encode : Option (ε × List UInt8)
  sync : Option ε
  rename : Option ε

/-- The error, file system and file operations `saveState` ends with. -/
structure SaveResult (ε : Type) where
  err : Option ε
  fs : FileSystem
  ops : List FileOp

/-- `Keyper2.saveState` of `keyper2.go` on an explicit file system. A failed call leaves the
file system as it is, except a failed `Encode`, which leaves in the temporary file the bytes
written before the failure; the deferred `file.Close()` runs last on every path after a
successful `os.Create`. -/
def Keyper2.saveState {σ sh mc ε : Type} (lib : SnapshotLib σ sh mc ε) (os : SaveOutcome ε)
    (kpr : Keyper2 σ sh mc) (fs : FileSystem) : SaveResult ε :=
  let gobpath := kpr.gobpath lib
  let tmppath := gobpath ++ ".tmp"
  match os.create with
  | some err => ⟨some err, fs, [.create tmppath]⟩
  | none =>
    let fs1 := fs.write tmppath []
    let st : storedState σ sh mc :=
      { State := kpr.State, Shutter := kpr.Shutter, MainChain := kpr.MainChain }
    match os.encode with
    | some (err, written) =>
      ⟨some err, fs1.write tmppath written,
        [.create tmppath, .write tmppath written, .close tmppath]⟩
    | none =>
      let fs2 := fs1.write tmppath (lib.gobEncode st)
      match os.sync with
      | some err =>
        ⟨some err, fs2,
          [.create tmppath, .write tmppath (lib.gobEncode st), .sync tmppath, .close tmppath]⟩
      | none =>
        match os.rename with
        | some err =>
          ⟨some err, fs2,
            [.create tmppath, .write tmppath (lib.gobEncode st), .sync tmppath,
              .rename tmppath gobpath, .close tmppath]⟩
        | none =>
          ⟨none, fs2.rename tmppath gobpath,
            [.create tmppath, .write tmppath (lib.gobEncode st), .sync tmppath,
              .rename tmppath gobpath, .close tmppath]⟩

/-- The effect on the file system of a file operation that succeeds: `os.Create` leaves an empty
file, a write leaves the given content in the file, `os.Rename` moves the file; `Sync` and `Close`
change no content. -/
def FileOp.effect (op : FileOp) (fs : FileSystem) : FileSystem :=
  match op with
  | .create p => fs.write p []
  | .write p c => fs.write p c
  | .sync _ => fs
  | .rename old new => fs.rename old new
  | .close _ => fs

/-- The file system after the operations `ops`, all successful, performed in order. -/
def replayOps (ops : List FileOp) (fs : FileSystem) : FileSystem :=
  ops.foldl (fun f op => op.effect f) fs

/-- A library to evaluate the snapshot code at concrete inputs: the three parts of a snapshot
are bytes, and a snapshot is encoded as these three bytes. -/
def exampleLib : SnapshotLib UInt8 UInt8 UInt8 String where
  filepathJoin := fun d f => d ++ "/" ++ f
  gobEncode := fun st => [st.State, st.Shutter, st.MainChain]
  gobDecode := fun bs =>
    match bs with
    | [a, b, c] => .ok ⟨a, b, c⟩
    | _ => .error "unexpected EOF"

end Shutter.Keyper

namespace Shutter.Txbatch

/-- Wrapping an integer into the range of `int64`, as Go's `int64` arithmetic and conversions
do. -/
def wrapInt64 (z : Int) : Int := (z + 2 ^ 63) % 2 ^ 64 - 2 ^ 63

/-- `(*big.Int).Int64`: the low 64 bits of the absolute value, converted to `int64`, negated
when the number is negative. -/
def bigInt64 (x : Int) : Int :=
  let v := wrapInt64 ((x.natAbs % 2 ^ 64 : Nat) : Int)
  if x < 0 then wrapInt64 (-v) else v

/-- The field `Nonce` (a `*big.Int`, taken as set) of `bind.TransactOpts`; `rest` stands for its
other fields (`From`, `Signer`, `Value`, `GasPrice`, `GasLimit`, `Context`). -/
structure TransactOpts (ρ : Type) where
  Nonce : Int
  rest : ρ

/-- `TXBatch` of `txbatch.go`; client, key, transaction and option types are parameters. -/
structure TXBatch (κ π τ ρ : Type) where
  Ethclient : κ
  TransactOpts : TransactOpts ρ
  key : π
  transactions : List τ

/-- `TXBatch.Add` of `txbatch.go`: append the transaction and set the nonce to
`Nonce.Int64() + 1`, computed in `int64`. -/
def TXBatch.Add {κ π τ ρ : Type} (txbatch : TXBatch κ π τ ρ) (tx : τ) : TXBatch κ π τ ρ :=
  { txbatch with
    transactions := txbatch.transactions ++ [tx]
    TransactOpts :=
      { txbatch.TransactOpts with
        Nonce := wrapInt64 (bigInt64 txbatch.TransactOpts.Nonce + 1) } }

/-- Adding the transactions `txs` one after the other. -/
def TXBatch.addAll {κ π τ ρ : Type} (txbatch : TXBatch κ π τ ρ) (txs : List τ) :
    TXBatch κ π τ ρ :=
  txs.foldl TXBatch.Add txbatch

end Shutter.Txbatch

namespace Shutter.Keyper

/-- The delay `runSleepTime` of `keyper2.go`, in seconds. -/
def runSleepTime : Nat := 10

/-- The `Decider` that `runOneStep` builds: the four fields it sets, and the `Actions` that
`Decide` leaves in it. `State`, `Shutter` and `MainChain` are the keyper's own (shared
pointers), so what `Decide` does to them is done to the keyper. -/
structure Decider (σ sh mc α : Type) where
  Config : KeyperConfig
  State : σ
  Shutter : sh
  MainChain : mc
  Actions : List α

/-- What `keyper2.go` calls in its loop and is not among the sources, together with the answers
of the outside world `ω` (chains, operating system): `Decider.Decide`, `IAction.Run` (the error it
returns and the world afterwards), the outcome of the file operations of a `saveState`, the
observer synchronisation of `sync` (the error of `group.Wait()`, the two observers and the world
afterwards) and `init`. -/
structure CycleEnv (σ sh mc α ε ω : Type) where
  lib : SnapshotLib σ sh mc ε
  Decide : Decider σ sh mc α → Decider σ sh mc α
  Run : α → ω → Option ε × ω
  saveOutcome : ω → SaveOutcome ε
  sync : sh → mc → ω → Option ε × sh × mc × ω
  init : ω → Option ε × ω

/-- The state the loop works on: the keyper, the file system and the outside world. -/
structure Machine (σ sh mc ω : Type) where
  kpr : Keyper2 σ sh mc
  fs : FileSystem
  world : ω

/-- The steps of `Run` and `runOneStep`, as they appear in a trace: each call with the error it
returned (`none` for `nil`), a `panic`, the `time.Sleep`, and the `return err` of `Run`. -/
inductive Step (α ε : Type) where
  | init (err : Option ε)
  | sync (err : Option ε)
  | decide
  | showActions (acts : List α)
  | readline
  | saveState (err : Option ε)
  | run (act : α) (err : Option ε)
  | panic (err : ε)
  | sleep (seconds : Nat)
  | ret (err : ε)
deriving DecidableEq, Repr

/-- The loop `for _, act := range decider.Actions` of `runOneStep`: the trace, the world
afterwards, and the error it panicked with (`none` when the loop ran to its end). -/
def runActions {σ sh mc α ε ω : Type} (env : CycleEnv σ sh mc α ε ω) :
    List α → ω → List (Step α ε) × ω × Option ε
  | [], w => ([], w, none)
  | act :: rest, w =>
    match env.Run act w with
    | (some err, w1) => ([.run act (some err), .panic err], w1, some err)
    | (none, w1) =>
      match runActions env rest w1 with
      | (t, w2, r) => (.run act none :: t, w2, r)

/-- The decider of a cycle after `decider.Decide()`. -/
def decided {σ sh mc α ε ω : Type} (env : CycleEnv σ sh mc α ε ω) (m : Machine σ sh mc ω) :
    Decider σ sh mc α :=
  env.Decide
    { Config := m.kpr.Config, State := m.kpr.State, Shutter := m.kpr.Shutter,
      MainChain := m.kpr.MainChain, Actions := [] }

/-- The keyper after `decider.Decide()`, which works on the keyper's state and observers. -/
def afterDecide {σ sh mc α ε ω : Type} (env : CycleEnv σ sh mc α ε ω) (m : Machine σ sh mc ω) :
    Keyper2 σ sh mc :=
  { m.kpr with
    State := (decided env m).State
    Shutter := (decided env m).Shutter
    MainChain := (decided env m).MainChain }

/-- The steps of the interactive display of `runOneStep`: the actions are shown and a line is
read when the keyper is interactive and there is an action. -/
def shownSteps {σ sh mc α : Type} (ε : Type) (kpr : Keyper2 σ sh mc) (acts : List α) :
    List (Step α ε) :=
  if kpr.Interactive = true ∧ acts.length > 0 then [.showActions acts, .readline] else []

/-- What one `runOneStep` ends with: the machine, the trace, and the error of the panic that ended
it (`none` when it returned). -/
structure StepResult (σ sh mc α ε ω : Type) where
  machine : Machine σ sh mc ω
  trace : List (Step α ε)
  panicked : Option ε

/-- `Keyper2.runOneStep` of `keyper2.go`. -/
def runOneStep {σ sh mc α ε ω : Type} (env : CycleEnv σ sh mc α ε ω) (m : Machine σ sh mc ω) :
    StepResult σ sh mc α ε ω :=
  let decider := decided env m
  let kpr := afterDecide env m
  let shown : List (Step α ε) := shownSteps ε kpr decider.Actions
  let saved := kpr.saveState env.lib (env.saveOutcome m.world) m.fs
  match saved.err with
  | some err =>
    ⟨⟨kpr, saved.fs, m.world⟩, .decide :: shown ++ [.saveState (some err), .panic err], some err⟩
  | none =>
    match runActions env decider.Actions m.world with
    | (t, w, r) => ⟨⟨kpr, saved.fs, w⟩, .decide :: shown ++ .saveState none :: t, r⟩

/-- How a run of the loop stands: `Run` returned an error, the process panicked, or the loop is
still running (it has no other exit). -/
inductive RunStatus (ε : Type) where
  | returned (err : ε)
  | panicked (err : ε)
  | running
deriving DecidableEq, Repr

/-- The loop `for { ... }` of `Keyper2.Run`, for at most `fuel` cycles: the trace, the machine
and the status it ends with; `running` when the cycles are used up. -/
def runLoop {σ sh mc α ε ω : Type} (env : CycleEnv σ sh mc α ε ω) :
    Nat → Machine σ sh mc ω → List (Step α ε) × Machine σ sh mc ω × RunStatus ε
  | 0, m => ([], m, .running)
  | fuel + 1, m =>
    match env.sync m.kpr.Shutter m.kpr.MainChain m.world with
    | (some err, s, c, w) =>
      ([.sync (some err), .ret err],
        ⟨{ m.kpr with Shutter := s, MainChain := c }, m.fs, w⟩, .returned err)
    | (none, s, c, w) =>
      let r := runOneStep env ⟨{ m.kpr with Shutter := s, MainChain := c }, m.fs, w⟩
      match r.panicked with
      | some err => (.sync none :: r.trace, r.machine, .panicked err)
      | none =>
        match runLoop env fuel r.machine with
        | (t, m1, st) => (.sync none :: r.trace ++ .sleep runSleepTime :: t, m1, st)

/-- `Keyper2.Run` of `keyper2.go`, from a keyper that is not yet initialized, for at most `fuel`
cycles of its loop. -/
def Run {σ sh mc α ε ω : Type} (env : CycleEnv σ sh mc α ε ω) (fuel : Nat)
    (m : Machine σ sh mc ω) : List (Step α ε) × Machine σ sh mc ω × RunStatus ε :=
  match env.init m.world with
  | (some err, w) => ([.init (some err), .ret err], { m with world := w }, .returned err)
  | (none, w) =>
    match runLoop env fuel { m with world := w } with
    | (t, m1, st) => (.init none :: t, m1, st)

/-- The actions whose `Run` was called in a trace, in order. -/
def actionsRun {α ε : Type} (t : List (Step α ε)) : List α :=
  t.filterMap (fun s => match s with
    | .run act _ => some act
    | _ => none)

/-- The actions whose `Run` returned without error in a trace, in order. -/
def actionsDone {α ε : Type} (t : List (Step α ε)) : List α :=
  t.filterMap (fun s => match s with
    | .run act none => some act
    | _ => none)

/-- The errors that calls of `Run` on actions returned in a trace, in order. -/
def actionErrors {α ε : Type} (t : List (Step α ε)) : List ε :=
  t.filterMap (fun s => match s with
    | .run _ (some err) => some err
    | _ => none)

/-- An environment to evaluate the loop at concrete inputs: the decider returns the actions
`acts`, which are numbers; the action `0` fails and every other one succeeds; the world is the
number of synchronisations that will still succeed; files are written without failure. -/
def exampleCycleEnv (acts : List Nat) : CycleEnv UInt8 UInt8 UInt8 Nat String Nat where
  lib := exampleLib
  Decide := fun d => { d with Actions := acts }
  Run := fun act w => if act = 0 then (some "action failed", w) else (none, w)
  saveOutcome := fun _ => ⟨none, none, none, none⟩
  sync := fun s c w => if w = 0 then (some "sync failed", s, c, w) else (none, s, c, w - 1)
  init := fun w => (none, w)

/-- The environment `exampleCycleEnv acts`, except that `os.Create` fails in every
`saveState`. -/
def exampleSaveFailEnv (acts : List Nat) : CycleEnv UInt8 UInt8 UInt8 Nat String Nat :=
  { exampleCycleEnv acts with saveOutcome := fun _ => ⟨some "create failed", none, none, none⟩ }

/-- A machine to start the examples from: an empty file system and `n` synchronisations that
will succeed. -/
def exampleMachine (n : Nat) : Machine UInt8 UInt8 UInt8 Nat :=
  ⟨⟨⟨"db"⟩, 1, 2, 3, false⟩, fun _ => none, n⟩

end Shutter.Keyper

/-! ## Theorems -/

namespace Shutter.Shcrypto

theorem mkBlock_bytes (l : List UInt8) (h : l.length = BlockSize) : (mkBlock l).bytes = l := by
  simp [mkBlock, h, List.take_of_length_le]

theorem fullBlocks_length (n : Nat) (m : List UInt8) : (fullBlocks n m).length = n := by
  induction n generalizing m with
  | zero => rfl
  | succ n ih => simp [fullBlocks, ih]

theorem fullBlocks_flatten (n : Nat) (m : List UInt8) (h : BlockSize * n ≤ m.length) :
    ((fullBlocks n m).map Block.bytes).flatten = m.take (BlockSize * n) := by
  induction n generalizing m with
  | zero => simp [fullBlocks]
  | succ n ih =>
    have h1 : BlockSize ≤ m.length := by simp only [BlockSize] at h ⊢; omega
    have h2 : BlockSize * n ≤ (m.drop BlockSize).length := by
      simp only [BlockSize, List.length_drop] at h ⊢; omega
    have h3 : (m.take BlockSize).length = BlockSize := by
      simp [List.length_take]; exact h1
    simp only [fullBlocks, List.map_cons, List.flatten_cons, mkBlock_bytes _ h3, ih _ h2]
    rw [Nat.mul_succ, Nat.add_comm (BlockSize * n), List.take_add]
    
theorem padTail_length (m : List UInt8) :
    (m.drop (BlockSize * (m.length / BlockSize))).length = m.length % BlockSize := by
  simp only [List.length_drop, BlockSize]; omega

theorem PadMessage_eq (m : List UInt8) :
    PadMessage m = fullBlocks (m.length / BlockSize) m ++
      [mkBlock (m.drop (BlockSize * (m.length / BlockSize)) ++
        List.replicate (BlockSize - m.length % BlockSize)
          (UInt8.ofNat (BlockSize - m.length % BlockSize)))] := by
  unfold PadMessage
  by_cases hr : m.length % BlockSize = 0
  · have h0 : m.drop (BlockSize * (m.length / BlockSize)) = [] := by
      apply List.eq_nil_of_length_eq_zero
      rw [padTail_length, hr]
    simp [hr, h0]
  · simp [hr]


theorem ofNat_toNat_small (k : Nat) (h : k ≤ BlockSize) : (UInt8.ofNat k).toNat = k := by
  have : k < 256 := by simp only [BlockSize] at h; omega
  simp [UInt8.toNat, UInt8.ofNat, Fin.ofNat, Nat.mod_eq_of_lt this]

theorem getLastD_append_replicate (t : List UInt8) (k : Nat) (x : UInt8) (hk : 0 < k) :
    (t ++ List.replicate k x).getLastD 0 = x := by
  obtain ⟨j, rfl⟩ : ∃ j, k = j + 1 := ⟨k - 1, by omega⟩
  rw [List.replicate_succ', ← List.append_assoc]
  simp [List.getLastD_eq_getLast?]

theorem unpad_snoc (pre : List Block) (t : List UInt8) (k : Nat) (hk : 0 < k)
    (ht : t.length + k = BlockSize) :
    UnpadMessage (pre ++ [mkBlock (t ++ List.replicate k (UInt8.ofNat k))]) =
      .ok ((pre.map Block.bytes).flatten ++ t) := by
  have hk2 : k ≤ BlockSize := by omega
  have hlen : (t ++ List.replicate k (UInt8.ofNat k)).length = BlockSize := by
    simp [ht]
  have hd : BlockSize - k = t.length := by omega
  rw [UnpadMessage]
  simp only [List.getLast?_concat, List.dropLast_concat, mkBlock_bytes _ hlen,
    getLastD_append_replicate _ _ _ hk, ofNat_toNat_small k hk2, hd]
  have h1 : ¬ (k = 0 ∨ BlockSize < k) := by omega
  simp [h1]

/-- The padded message always ends with the tail of `m` completed by `k` bytes of value `k`. -/
theorem PadMessage_getLast (m : List UInt8) :
    (PadMessage m).getLast? = some (mkBlock (m.drop (BlockSize * (m.length / BlockSize)) ++
        List.replicate (BlockSize - m.length % BlockSize)
          (UInt8.ofNat (BlockSize - m.length % BlockSize)))) := by
  rw [PadMessage_eq, List.getLast?_concat]

/-- The vectors of `TestPadding` (`encryption_test.go`): the model pads them as the test expects. -/
theorem PadMessage_test_vectors :
    (PadMessage []).map Block.bytes = [List.replicate 32 0x20] ∧
    (PadMessage [0x99]).map Block.bytes = [0x99 :: List.replicate 31 0x1f] ∧
    (PadMessage [0x99, 0x99]).map Block.bytes = [0x99 :: 0x99 :: List.replicate 30 0x1e] ∧
    (PadMessage (List.replicate 31 0x99)).map Block.bytes = [List.replicate 31 0x99 ++ [0x01]] ∧
    (PadMessage (List.replicate 32 0x99)).map Block.bytes =
      [List.replicate 32 0x99, List.replicate 32 0x20] ∧
    (PadMessage (List.replicate 33 0x99)).map Block.bytes =
      [List.replicate 32 0x99, 0x99 :: List.replicate 31 0x1f] := by
  decide

/-- The vectors of `TestUnpadding` (`encryption_test.go`): the four invalid inputs are rejected
and the four valid ones give the expected message. -/
theorem UnpadMessage_test_vectors :
    UnpadMessage [mkBlock (List.replicate 32 0x00)] = .error .InvalidPadding ∧
    UnpadMessage [mkBlock ([0xaa, 0xbb, 0xcc] ++ List.replicate 29 0x00)] =
      .error .InvalidPadding ∧
    UnpadMessage [mkBlock (List.replicate 32 0x21)] = .error .InvalidPadding ∧
    UnpadMessage [mkBlock (List.replicate 32 0x99), mkBlock (List.replicate 32 0x00)] =
      .error .InvalidPadding ∧
    UnpadMessage [mkBlock (List.replicate 32 0x20)] = .ok [] ∧
    UnpadMessage [mkBlock (0x99 :: List.replicate 31 0x1f)] = .ok [0x99] ∧
    UnpadMessage [mkBlock (List.replicate 31 0x99 ++ [0x01])] = .ok (List.replicate 31 0x99) ∧
    UnpadMessage [mkBlock (List.replicate 32 0x99), mkBlock (List.replicate 32 0x20)] =
      .ok (List.replicate 32 0x99) := by
  decide

/-- C1: for every byte string `m`, of any length, unpadding the padded message succeeds and
returns exactly `m`. -/
theorem UnpadMessage_PadMessage (m : List UInt8) : UnpadMessage (PadMessage m) = .ok m := by
  have hr := Nat.mod_lt m.length (show 0 < BlockSize by decide)
  rw [PadMessage_eq, unpad_snoc _ _ _ (by omega) (by rw [padTail_length]; omega),
    fullBlocks_flatten _ _ (Nat.mul_div_le _ _), List.take_append_drop]

/-- C2: the blocks of `PadMessage m`, laid end to end, are `m` followed by
`k = 32 - (len m mod 32)` bytes of value `k`; there are exactly `len m / 32 + 1` of them; and
the last block is 32 bytes of value `0x20` when `len m` is a multiple of 32 (the tail of `m`
completed by the `k` padding bytes otherwise). -/
theorem PadMessage_layout (m : List UInt8) :
    ((PadMessage m).map Block.bytes).flatten =
        m ++ List.replicate (BlockSize - m.length % BlockSize)
          (UInt8.ofNat (BlockSize - m.length % BlockSize)) ∧
    (PadMessage m).length = m.length / BlockSize + 1 ∧
    (PadMessage m).getLast?.map Block.bytes =
      some (if m.length % BlockSize = 0 then List.replicate 32 0x20
        else m.drop (BlockSize * (m.length / BlockSize)) ++
          List.replicate (BlockSize - m.length % BlockSize)
            (UInt8.ofNat (BlockSize - m.length % BlockSize))) := by
  have hr := Nat.mod_lt m.length (show 0 < BlockSize by decide)
  have hlen : (m.drop (BlockSize * (m.length / BlockSize)) ++
        List.replicate (BlockSize - m.length % BlockSize)
          (UInt8.ofNat (BlockSize - m.length % BlockSize))).length = BlockSize := by
    rw [List.length_append, padTail_length, List.length_replicate]; omega
  refine ⟨?_, ?_, ?_⟩
  · rw [PadMessage_eq, List.map_append, List.flatten_append,
      fullBlocks_flatten _ _ (Nat.mul_div_le _ _)]
    simp only [List.map_cons, List.map_nil, List.flatten_cons, List.flatten_nil,
      List.append_nil, mkBlock_bytes _ hlen]
    rw [← List.append_assoc, List.take_append_drop]
  · rw [PadMessage_eq, List.length_append, fullBlocks_length]; rfl
  · rw [PadMessage_getLast, Option.map_some', mkBlock_bytes _ hlen]
    by_cases h0 : m.length % BlockSize = 0
    · have hnil : m.drop (BlockSize * (m.length / BlockSize)) = [] := by
        apply List.eq_nil_of_length_eq_zero
        rw [padTail_length, h0]
      rw [if_pos h0, hnil, h0]; rfl
    · rw [if_neg h0]

/-- C3: for a list of blocks with last block `last`, whose last byte is `v`: `UnpadMessage`
fails with `InvalidPadding` when `v = 0`, when `v > 32`, and when some byte among the last `v`
bytes of `last` differs from `v`. -/
theorem UnpadMessage_rejects (blocks : List Block) (last : Block)
    (hlast : blocks.getLast? = some last)
    (hbad : (last.bytes.getLastD 0).toNat = 0 ∨ BlockSize < (last.bytes.getLastD 0).toNat ∨
      ∃ b ∈ last.bytes.drop (BlockSize - (last.bytes.getLastD 0).toNat),
        b.toNat ≠ (last.bytes.getLastD 0).toNat) :
    UnpadMessage blocks = .error .InvalidPadding := by
  rw [UnpadMessage, hlast]
  simp only
  by_cases h1 : (last.bytes.getLastD 0).toNat = 0 ∨ BlockSize < (last.bytes.getLastD 0).toNat
  · rw [if_pos h1]
  · rw [if_neg h1]
    have h2 : ∃ b ∈ last.bytes.drop (BlockSize - (last.bytes.getLastD 0).toNat),
        b.toNat ≠ (last.bytes.getLastD 0).toNat := by
      rcases hbad with h | h | h
      · exact absurd (Or.inl h) h1
      · exact absurd (Or.inr h) h1
      · exact h
    obtain ⟨b, hb, hne⟩ := h2
    have h3 : last.bytes.drop (BlockSize - (last.bytes.getLastD 0).toNat) ≠
        List.replicate (last.bytes.getLastD 0).toNat
          (UInt8.ofNat (last.bytes.getLastD 0).toNat) := by
      intro heq
      rw [heq] at hb
      have hbe := List.eq_of_mem_replicate hb
      apply hne
      rw [hbe]
      exact ofNat_toNat_small _ (by omega)
    rw [if_pos h3]

/-- C3 at a concrete input: a single block `00 .. 00 02`, whose marker `2` is not matched by the
byte before it, is rejected. -/
theorem UnpadMessage_rejects_witness :
    UnpadMessage [mkBlock (List.replicate 31 0x00 ++ [0x02])] = .error .InvalidPadding :=
  UnpadMessage_rejects [mkBlock (List.replicate 31 0x00 ++ [0x02])]
    (mkBlock (List.replicate 31 0x00 ++ [0x02])) rfl (by decide)

end Shutter.Shcrypto

namespace Shutter.Strconv

theorem digitVal_digitChar (k : Nat) (h : k < 10) : digitVal (Nat.digitChar k) = some k := by
  interval_cases k <;> rfl

theorem digitChar_ne_sign (k : Nat) (h : k < 10) :
    Nat.digitChar k ≠ '+' ∧ Nat.digitChar k ≠ '-' := by
  interval_cases k <;> decide

/-- The digits that `Nat.toDigitsCore` puts in front of `ds` start with a decimal digit and are
read back by `parseUint` as the number they were produced from. -/
theorem parseUint_toDigitsCore (fuel n : Nat) (h : n < fuel) (ds : List Char) :
    ∃ l : List Char, Nat.toDigitsCore 10 fuel n ds = l ++ ds ∧
      (∃ k, k < 10 ∧ l.head? = some (Nat.digitChar k)) ∧
      ∀ acc rest, acc * 10 ^ l.length + n < 2 ^ 64 →
        parseUint (l ++ rest) acc = parseUint rest (acc * 10 ^ l.length + n) := by
  induction fuel generalizing n ds with
  | zero => omega
  | succ fuel ih =>
    rw [Nat.toDigitsCore]
    by_cases h0 : n / 10 = 0
    · simp only [h0, if_true]
      have hn : n < 10 := by omega
      refine ⟨[Nat.digitChar (n % 10)], rfl, ⟨n % 10, Nat.mod_lt _ (by decide), rfl⟩, ?_⟩
      intro acc rest hlt
      have hmod : n % 10 = n := Nat.mod_eq_of_lt hn
      simp only [List.length_singleton, pow_one] at hlt ⊢
      rw [hmod, List.singleton_append, parseUint, digitVal_digitChar n hn]
      simp only
      rw [if_neg (by omega)]
    · simp only [h0, if_false]
      obtain ⟨l, hl, hhead, hparse⟩ := ih (n / 10) (by omega) (Nat.digitChar (n % 10) :: ds)
      refine ⟨l ++ [Nat.digitChar (n % 10)], by rw [hl]; simp, ?_, ?_⟩
      · obtain ⟨k, hk, hk'⟩ := hhead
        refine ⟨k, hk, ?_⟩
        cases l with
        | nil => simp at hk'
        | cons a t => simpa using hk'
      · intro acc rest hlt
        have hpow : acc * 10 ^ (l ++ [Nat.digitChar (n % 10)]).length + n =
            (acc * 10 ^ l.length + n / 10) * 10 + n % 10 := by
          rw [List.length_append, List.length_singleton, pow_succ]
          have := Nat.div_add_mod n 10
          nlinarith
        rw [hpow] at hlt ⊢
        rw [List.append_assoc, hparse _ _ (by omega), List.singleton_append, parseUint,
          digitVal_digitChar _ (Nat.mod_lt _ (by decide))]
        simp only
        rw [if_neg (by omega)]

theorem Atoi_repr (n : Nat) (h : n < 2 ^ 63) : Atoi (toString n) = .ok (n : Int) := by
  obtain ⟨l, hl, ⟨k, hk, hhead⟩, hparse⟩ := parseUint_toDigitsCore (n + 1) n (by omega) []
  have hdata : (toString n).data = l := by
    show (Nat.toDigits 10 n) = l
    rw [Nat.toDigits, hl, List.append_nil]
  have hne : l ≠ [] := by
    intro hnil; rw [hnil] at hhead; simp at hhead
  have hp : parseUint l 0 = .ok n := by
    have := hparse 0 [] (by omega)
    simpa [parseUint] using this
  have hs := digitChar_ne_sign k hk
  unfold Atoi
  rw [hdata, hhead]
  have h' : n < 9223372036854775808 := by norm_num at h; exact h
  simp [hs.1, hs.2, hne, hp, IntSize, h']

theorem Atoi_repr_range (n : Nat) (hlo : 2 ^ 63 ≤ n) (hhi : n < 2 ^ 64) :
    Atoi (toString n) = .error .ErrRange := by
  obtain ⟨l, hl, ⟨k, hk, hhead⟩, hparse⟩ := parseUint_toDigitsCore (n + 1) n (by omega) []
  have hdata : (toString n).data = l := by
    show (Nat.toDigits 10 n) = l
    rw [Nat.toDigits, hl, List.append_nil]
  have hne : l ≠ [] := by
    intro hnil; rw [hnil] at hhead; simp at hhead
  have hp : parseUint l 0 = .ok n := by
    have := hparse 0 [] (by omega)
    simpa [parseUint] using this
  have hs := digitChar_ne_sign k hk
  unfold Atoi
  rw [hdata, hhead]
  have h1 : ¬ n < 9223372036854775808 := by norm_num at hlo; omega
  simp [hs.1, hs.2, hne, hp, IntSize, h1]

theorem repr_ne_empty (n : Nat) : toString n ≠ "" := by
  obtain ⟨l, hl, ⟨k, hk, hhead⟩, -⟩ := parseUint_toDigitsCore (n + 1) n (by omega) []
  intro he
  have hdata : (toString n).data = l := by
    show (Nat.toDigits 10 n) = l
    rw [Nat.toDigits, hl, List.append_nil]
  rw [he] at hdata
  rw [← hdata] at hhead
  simp at hhead

end Shutter.Strconv

namespace Shutter.Keyper

open Shutter.Strconv

theorem MakePrivkeyGeneratedEvent_short (app : AppCodec) (ev : Event)
    (h : ev.Attributes.length < 2) :
    MakePrivkeyGeneratedEvent app ev = .error (.notEnoughAttributes ev) := by
  rw [MakePrivkeyGeneratedEvent, dif_pos h]

theorem MakePubkeyGeneratedEvent_short (app : AppCodec) (ev : Event)
    (h : ev.Attributes.length < 2) :
    MakePubkeyGeneratedEvent app ev = .error (.notEnoughAttributes ev) := by
  rw [MakePubkeyGeneratedEvent, dif_pos h]

theorem MakeBatchConfigEvent_short (app : AppCodec) (ev : Event)
    (h : ev.Attributes.length < 3) :
    MakeBatchConfigEvent app ev = .error (.notEnoughAttributes ev) := by
  rw [MakeBatchConfigEvent, dif_pos h]

theorem MakePrivkeyGeneratedEvent_badKey (app : AppCodec) (ev : Event)
    (h : ¬ ev.Attributes.length < 2)
    (hk : (ev.Attributes.map EventAttribute.Key)[0]? ≠ some "BatchIndex" ∨
      (ev.Attributes.map EventAttribute.Key)[1]? ≠ some "Privkey") :
    MakePrivkeyGeneratedEvent app ev = .error (.badEventAttributes ev) := by
  have h0 : 0 < ev.Attributes.length := by omega
  have h1 : 1 < ev.Attributes.length := by omega
  rw [MakePrivkeyGeneratedEvent, dif_neg h]
  simp only [List.getElem?_map, List.getElem?_eq_getElem h0, List.getElem?_eq_getElem h1,
    Option.map_some', ne_eq, Option.some.injEq] at hk
  simp only [ne_eq]
  rw [if_pos hk]

theorem MakePubkeyGeneratedEvent_badKey (app : AppCodec) (ev : Event)
    (h : ¬ ev.Attributes.length < 2)
    (hk : (ev.Attributes.map EventAttribute.Key)[0]? ≠ some "BatchIndex" ∨
      (ev.Attributes.map EventAttribute.Key)[1]? ≠ some "Pubkey") :
    MakePubkeyGeneratedEvent app ev = .error (.badEventAttributes ev) := by
  have h0 : 0 < ev.Attributes.length := by omega
  have h1 : 1 < ev.Attributes.length := by omega
  rw [MakePubkeyGeneratedEvent, dif_neg h]
  simp only [List.getElem?_map, List.getElem?_eq_getElem h0, List.getElem?_eq_getElem h1,
    Option.map_some', ne_eq, Option.some.injEq] at hk
  simp only [ne_eq]
  rw [if_pos hk]

theorem MakeBatchConfigEvent_badKey (app : AppCodec) (ev : Event)
    (h : ¬ ev.Attributes.length < 3)
    (hk : (ev.Attributes.map EventAttribute.Key)[0]? ≠ some "StartBatchIndex" ∨
      (ev.Attributes.map EventAttribute.Key)[1]? ≠ some "Threshold" ∨
      (ev.Attributes.map EventAttribute.Key)[2]? ≠ some "Keypers") :
    MakeBatchConfigEvent app ev = .error (.badEventAttributes ev) := by
  have h0 : 0 < ev.Attributes.length := by omega
  have h1 : 1 < ev.Attributes.length := by omega
  have h2 : 2 < ev.Attributes.length := by omega
  rw [MakeBatchConfigEvent, dif_neg h]
  simp only [List.getElem?_map, List.getElem?_eq_getElem h0, List.getElem?_eq_getElem h1,
    List.getElem?_eq_getElem h2, Option.map_some', ne_eq, Option.some.injEq] at hk
  simp only [ne_eq]
  rw [if_pos hk]

/-- C4: `MakeEvent` fails closed. An event whose type is none of the three known ones is
refused; an event with fewer attributes than its type requires is refused with the
attribute-count error, whatever its keys; an event whose key at some required position is not the
expected name is refused (with the attribute-count error when it is too short, the
bad-attributes error otherwise); and a successful result is the variant named by the type. -/
theorem MakeEvent_fails_closed (app : AppCodec) (ev : Event) :
    (specRequiredKeys ev.Typ = none → MakeEvent app ev = .error (.cannotMakeEvent ev)) ∧
    (∀ ks, specRequiredKeys ev.Typ = some ks → ev.Attributes.length < ks.length →
      MakeEvent app ev = .error (.notEnoughAttributes ev)) ∧
    (∀ ks i, specRequiredKeys ev.Typ = some ks → i < ks.length →
      (ev.Attributes.map EventAttribute.Key)[i]? ≠ ks[i]? →
      MakeEvent app ev = .error (if ev.Attributes.length < ks.length
        then .notEnoughAttributes ev else .badEventAttributes ev)) ∧
    (∀ res, MakeEvent app ev = .ok res → res.typeName = ev.Typ) := by
  unfold specRequiredKeys MakeEvent
  by_cases t1 : ev.Typ = "shutter.privkey-generated"
  · simp only [t1, if_true]
    refine ⟨fun h => by simp at h, ?_, ?_, ?_⟩
    · intro ks hks hlen
      simp only [Option.some.injEq] at hks
      subst hks
      rw [MakePrivkeyGeneratedEvent_short app ev hlen]
    · intro ks i hks hi hne
      simp only [Option.some.injEq] at hks
      subst hks
      by_cases hlen : ev.Attributes.length < 2
      · rw [MakePrivkeyGeneratedEvent_short app ev hlen]
        simp only [List.length_cons, List.length_nil, Nat.zero_add, Nat.reduceAdd, hlen, if_true]
      · rw [MakePrivkeyGeneratedEvent_badKey app ev hlen]
        · simp only [List.length_cons, List.length_nil, Nat.zero_add, Nat.reduceAdd, hlen,
            if_false]
        · simp only [List.length_cons, List.length_nil, Nat.zero_add, Nat.reduceAdd] at hi
          interval_cases i
          · exact Or.inl hne
          · exact Or.inr hne
    · intro res hres
      cases hm : MakePrivkeyGeneratedEvent app ev with
      | error e => rw [hm] at hres; simp at hres
      | ok r =>
        rw [hm] at hres
        simp only [Except.ok.injEq] at hres
        rw [← hres]; rfl
  · by_cases t2 : ev.Typ = "shutter.pubkey-generated"
    · simp only [t2, if_true]
      refine ⟨fun h => by simp at h, ?_, ?_, ?_⟩
      · intro ks hks hlen
        simp only [String.reduceEq, if_false, Option.some.injEq] at hks ⊢
        subst hks
        rw [MakePubkeyGeneratedEvent_short app ev hlen]
      · intro ks i hks hi hne
        simp only [String.reduceEq, if_false, Option.some.injEq] at hks ⊢
        subst hks
        by_cases hlen : ev.Attributes.length < 2
        · rw [MakePubkeyGeneratedEvent_short app ev hlen]
          simp only [List.length_cons, List.length_nil, Nat.zero_add, Nat.reduceAdd, hlen,
            if_true]
        · rw [MakePubkeyGeneratedEvent_badKey app ev hlen]
          · simp only [List.length_cons, List.length_nil, Nat.zero_add, Nat.reduceAdd, hlen,
              if_false]
          · simp only [List.length_cons, List.length_nil, Nat.zero_add, Nat.reduceAdd] at hi
            interval_cases i
            · exact Or.inl hne
            · exact Or.inr hne
      · intro res hres
        simp only [String.reduceEq, if_false] at hres
        cases hm : MakePubkeyGeneratedEvent app ev with
        | error e => rw [hm] at hres; simp at hres
        | ok r =>
          rw [hm] at hres
          simp only [Except.ok.injEq] at hres
          rw [← hres]; rfl
    · by_cases t3 : ev.Typ = "shutter.batch-config"
      · simp only [t3, if_true]
        refine ⟨fun h => by simp at h, ?_, ?_, ?_⟩
        · intro ks hks hlen
          simp only [String.reduceEq, if_false, Option.some.injEq] at hks ⊢
          subst hks
          rw [MakeBatchConfigEvent_short app ev hlen]
        · intro ks i hks hi hne
          simp only [String.reduceEq, if_false, Option.some.injEq] at hks ⊢
          subst hks
          by_cases hlen : ev.Attributes.length < 3
          · rw [MakeBatchConfigEvent_short app ev hlen]
            simp only [List.length_cons, List.length_nil, Nat.zero_add, Nat.reduceAdd, hlen,
              if_true]
          · rw [MakeBatchConfigEvent_badKey app ev hlen]
            · simp only [List.length_cons, List.length_nil, Nat.zero_add, Nat.reduceAdd, hlen,
                if_false]
            · simp only [List.length_cons, List.length_nil, Nat.zero_add, Nat.reduceAdd] at hi
              interval_cases i
              · exact Or.inl hne
              · exact Or.inr (Or.inl hne)
              · exact Or.inr (Or.inr hne)
        · intro res hres
          simp only [String.reduceEq, if_false] at hres
          cases hm : MakeBatchConfigEvent app ev with
          | error e => rw [hm] at hres; simp at hres
          | ok r =>
            rw [hm] at hres
            simp only [Except.ok.injEq] at hres
            rw [← hres]; rfl
      · simp only [t1, t2, t3, if_false]
        refine ⟨fun _ => trivial, ?_, ?_, ?_⟩
        · intro ks hks; simp at hks
        · intro ks i hks; simp at hks
        · intro res hres; simp at hres

/-- C4 at a concrete input: a batch-config event with only the two attributes
`StartBatchIndex` and `Threshold` (no `Keypers`) fails with the attribute-count error. -/
theorem MakeEvent_fails_closed_witness :
    MakeEvent exampleCodec
      ⟨"shutter.batch-config", [⟨"StartBatchIndex", "0"⟩, ⟨"Threshold", "1"⟩]⟩ =
      .error (.notEnoughAttributes
        ⟨"shutter.batch-config", [⟨"StartBatchIndex", "0"⟩, ⟨"Threshold", "1"⟩]⟩) :=
  (MakeEvent_fails_closed exampleCodec
    ⟨"shutter.batch-config", [⟨"StartBatchIndex", "0"⟩, ⟨"Threshold", "1"⟩]⟩).2.1
    ["StartBatchIndex", "Threshold", "Keypers"] (by decide) (by decide)

/-- C5: the decoders do not reject out-of-range numbers. A batch-config event with
`StartBatchIndex = "-1"` and `Threshold = "4294967297"` is decoded without error into
`StartBatchIndex = 2^64 - 1` and `Threshold = 1`, and a privkey-generated event with
`BatchIndex = "-1"` into `BatchIndex = 2^64 - 1`. -/
theorem MakeEvent_numeric_wraparound (app : AppCodec) :
    MakeEvent app ⟨"shutter.batch-config",
        [⟨"StartBatchIndex", "-1"⟩, ⟨"Threshold", "4294967297"⟩, ⟨"Keypers", ""⟩]⟩ =
      .ok (.batchConfig ⟨18446744073709551615, 1, app.DecodeAddressesFromEvent ""⟩) ∧
    MakeEvent exampleCodec ⟨"shutter.privkey-generated",
        [⟨"BatchIndex", "-1"⟩, ⟨"Privkey", "k"⟩]⟩ =
      .ok (.privkeyGenerated ⟨18446744073709551615, "k"⟩) :=
  ⟨rfl, rfl⟩

end Shutter.Keyper

namespace Shutter.App

open Shutter.Strconv

theorem toUint64_ofNat (n : Nat) (h : n < 2 ^ 64) : toUint64 (n : Int) = n := by
  unfold toUint64
  have h1 : ((n : Int) % 2 ^ 64) = n := by
    apply Int.emod_eq_of_lt
    · exact Int.ofNat_nonneg n
    · exact_mod_cast h
  rw [h1, Int.toNat_ofNat]

theorem queryBatchConfig_code (app : ShutterApp) (vs : Values) :
    (queryBatchConfig app vs).1.Code = 0 ∨ (queryBatchConfig app vs).1.Code = 1 := by
  unfold queryBatchConfig
  simp only
  split
  · right; rfl
  · split
    · right; rfl
    · split
      · right; rfl
      · split
        · right; rfl
        · left; rfl

theorem queryBatchConfig_trace (app : ShutterApp) (vs : Values)
    (h : (queryBatchConfig app vs).2 ≠ []) :
    ∃ n : Int, vs.Get "batchIndex" ≠ "" ∧ Atoi (vs.Get "batchIndex") = .ok n ∧ 0 ≤ n ∧
      (queryBatchConfig app vs).2 = [toUint64 n] := by
  unfold queryBatchConfig at h ⊢
  simp only at h ⊢
  split at h
  · exact absurd rfl h
  · rename_i hne
    rw [if_neg hne]
    split at h
    · exact absurd rfl h
    · rename_i n hn
      rw [hn]
      split at h
      · exact absurd rfl h
      · rename_i hnn
        rw [if_neg hnn]
        refine ⟨n, hne, rfl, by omega, ?_⟩
        split <;> rfl

theorem queryBatchConfig_no_lookup (app : ShutterApp) (vs : Values)
    (h : (queryBatchConfig app vs).2 = []) :
    (queryBatchConfig app vs).1.Code = 1 ∧ (queryBatchConfig app vs).1.Value = [] := by
  unfold queryBatchConfig at h ⊢
  simp only at h ⊢
  split
  · exact ⟨rfl, rfl⟩
  · rename_i hne
    rw [if_neg hne] at h
    split
    · exact ⟨rfl, rfl⟩
    · rename_i n hn
      rw [hn] at h
      simp only at h
      split
      · exact ⟨rfl, rfl⟩
      · rename_i hnn
        rw [if_neg hnn] at h
        split at h <;> simp at h

theorem Query_of_configs (app : ShutterApp) (req : RequestQuery) (u : URL)
    (hparse : app.urlParse req.Path = .ok u)
    (hclean : u.Scheme = "" ∧ u.Opaque = "" ∧ u.User = "" ∧ u.Host = "" ∧ u.Fragment = "")
    (hpath : u.Path = "/configs/") :
    Query app req = queryBatchConfig app (app.urlQuery u) := by
  obtain ⟨h1, h2, h3, h4, h5⟩ := hclean
  unfold Query
  rw [hparse]
  simp [h1, h2, h3, h4, h5, hpath]

/-- C6: `Query` always answers with code 0 or 1. It calls `getConfig` only when the path parses
as a URL with empty scheme, opaque part, user, host and fragment, the URL path is `/configs/`,
and the `batchIndex` parameter is non-empty and parses with `Atoi` to a non-negative integer.
When `getConfig` is not called the answer has code 1 and no value; the log is
`invalid request url` when the path does not parse or one of those URL parts is set, and
otherwise `unknown method` for another URL path, `missing batch index parameter` for an absent
or empty `batchIndex`, and `batch index not valid integer` for `-1` and for what `Atoi`
rejects. -/
theorem Query_rejects_before_lookup (app : ShutterApp) (req : RequestQuery) :
    ((Query app req).1.Code = 0 ∨ (Query app req).1.Code = 1) ∧
    ((Query app req).2 ≠ [] →
      ∃ (u : URL) (n : Int), app.urlParse req.Path = .ok u ∧
        u.Scheme = "" ∧ u.Opaque = "" ∧ u.User = "" ∧ u.Host = "" ∧ u.Fragment = "" ∧
        u.Path = "/configs/" ∧ (app.urlQuery u).Get "batchIndex" ≠ "" ∧
        Atoi ((app.urlQuery u).Get "batchIndex") = .ok n ∧ 0 ≤ n ∧
        (Query app req).2 = [toUint64 n]) ∧
    ((Query app req).2 = [] → (Query app req).1.Code = 1 ∧ (Query app req).1.Value = []) ∧
    ((∀ u, app.urlParse req.Path = .ok u →
        ¬ (u.Scheme = "" ∧ u.Opaque = "" ∧ u.User = "" ∧ u.Host = "" ∧ u.Fragment = "")) →
      Query app req = (makeQueryErrorResponse "invalid request url", [])) ∧
    (∀ u : URL, app.urlParse req.Path = .ok u →
      u.Scheme = "" ∧ u.Opaque = "" ∧ u.User = "" ∧ u.Host = "" ∧ u.Fragment = "" →
      (u.Path ≠ "/configs/" → Query app req = (makeQueryErrorResponse "unknown method", [])) ∧
      (u.Path = "/configs/" → (app.urlQuery u).Get "batchIndex" = "" →
        Query app req = (makeQueryErrorResponse "missing batch index parameter", [])) ∧
      (u.Path = "/configs/" → (app.urlQuery u).Get "batchIndex" = "-1" →
        Query app req = (makeQueryErrorResponse "batch index not valid integer", [])) ∧
      (u.Path = "/configs/" → (app.urlQuery u).Get "batchIndex" ≠ "" →
        (∀ n, Atoi ((app.urlQuery u).Get "batchIndex") ≠ .ok n) →
        Query app req = (makeQueryErrorResponse "batch index not valid integer", []))) := by
  refine ⟨?_, ?_, ?_, ?_, ?_⟩
  · unfold Query
    split
    · right; rfl
    · split
      · right; rfl
      · split
        · exact queryBatchConfig_code _ _
        · right; rfl
  · intro h
    unfold Query at h
    split at h
    · exact absurd rfl h
    · rename_i u hu
      split at h
      · exact absurd rfl h
      · rename_i hc
        have hc' : u.Scheme = "" ∧ u.Opaque = "" ∧ u.User = "" ∧ u.Host = "" ∧
            u.Fragment = "" := by
          simp only [ne_eq, not_or, not_not] at hc
          exact hc
        split at h
        · rename_i hp
          obtain ⟨n, h1, h2, h3, h4⟩ := queryBatchConfig_trace app _ h
          refine ⟨u, n, hu, hc'.1, hc'.2.1, hc'.2.2.1, hc'.2.2.2.1, hc'.2.2.2.2, hp, h1, h2, h3, ?_⟩
          rw [Query_of_configs app req u hu hc' hp]
          exact h4
        · exact absurd rfl h
  · intro h
    unfold Query at h ⊢
    split
    · exact ⟨rfl, rfl⟩
    · rename_i u hu
      rw [hu] at h
      simp only at h
      split
      · exact ⟨rfl, rfl⟩
      · rename_i hc
        rw [if_neg hc] at h
        split
        · rename_i hp
          rw [if_pos hp] at h
          exact queryBatchConfig_no_lookup app _ h
        · exact ⟨rfl, rfl⟩
  · intro h
    unfold Query
    split
    · rfl
    · rename_i u hu
      have hc := h u hu
      split
      · rfl
      · rename_i hn
        exfalso
        apply hc
        simp only [ne_eq, not_or, not_not] at hn
        exact hn
  · intro u hu hc
    refine ⟨?_, ?_, ?_, ?_⟩
    · intro hp
      obtain ⟨h1, h2, h3, h4, h5⟩ := hc
      unfold Query
      rw [hu]
      simp [h1, h2, h3, h4, h5, hp]
    · intro hp hg
      rw [Query_of_configs app req u hu hc hp]
      unfold queryBatchConfig
      simp [hg]
    · intro hp hg
      rw [Query_of_configs app req u hu hc hp]
      unfold queryBatchConfig
      rw [hg]
      rfl
    · intro hp hne hg
      rw [Query_of_configs app req u hu hc hp]
      unfold queryBatchConfig
      simp only [hne, if_false]
      split
      · rfl
      · rename_i n hn
        exact absurd hn (hg n)

/-- C6 at concrete requests: `batchIndex=-1` and a non-numeric `batchIndex` are refused without
a call of `getConfig`. -/
theorem Query_rejects_before_lookup_witness :
    Query exampleApp ⟨"/configs/?batchIndex=-1"⟩ =
      (makeQueryErrorResponse "batch index not valid integer", []) ∧
    Query exampleApp ⟨"/configs/?batchIndex=abc"⟩ =
      (makeQueryErrorResponse "batch index not valid integer", []) := by
  refine ⟨((Query_rejects_before_lookup exampleApp ⟨"/configs/?batchIndex=-1"⟩).2.2.2.2
      ⟨"", "", "", "", "/configs/", "batchIndex=-1", ""⟩ rfl (by decide)).2.2.1
      rfl (by decide),
    ((Query_rejects_before_lookup exampleApp ⟨"/configs/?batchIndex=abc"⟩).2.2.2.2
      ⟨"", "", "", "", "/configs/", "batchIndex=abc", ""⟩ rfl (by decide)).2.2.2
      rfl (by decide) ?_⟩
  intro n hn
  have habc : Atoi ((exampleApp.urlQuery
      ⟨"", "", "", "", "/configs/", "batchIndex=abc", ""⟩).Get "batchIndex") =
      .error .ErrSyntax := by decide
  rw [habc] at hn
  exact Except.noConfusion hn

/-- C7, at the index `2^63`: the request `/configs/?batchIndex=9223372036854775808`, whose
index is a valid `uint64`, is refused as "batch index not valid integer" and `getConfig` is not
called, so the configuration at that index is not returned. -/
theorem Query_config_lookup_counterexample :
    (9223372036854775808 : Nat) < 2 ^ 64 ∧
    exampleApp.urlParse "/configs/?batchIndex=9223372036854775808" =
      .ok ⟨"", "", "", "", "/configs/", "batchIndex=9223372036854775808", ""⟩ ∧
    (exampleApp.urlQuery ⟨"", "", "", "", "/configs/", "batchIndex=9223372036854775808", ""⟩).Get
      "batchIndex" = toString (9223372036854775808 : Nat) ∧
    Query exampleApp ⟨"/configs/?batchIndex=9223372036854775808"⟩ =
      (makeQueryErrorResponse "batch index not valid integer", []) ∧
    ¬ ((Query exampleApp ⟨"/configs/?batchIndex=9223372036854775808"⟩).2 =
        [9223372036854775808] ∧
      (Query exampleApp ⟨"/configs/?batchIndex=9223372036854775808"⟩).1.Code = 0) := by
  decide

/-- C7, amended: for every `uint64` value `n`, a request whose path parses to the URL path
`/configs/` (nothing else set) with `batchIndex` equal to the decimal representation of `n`
behaves as follows. When `n < 2^63` it calls `getConfig` exactly once, at `n`, and when the
serialization of that configuration's message succeeds with `bytes` the answer is code 0 with
value `bytes`. When `2^63 ≤ n` it is refused with code 1, no value and the log
`batch index not valid integer`, and `getConfig` is not called. -/
theorem Query_config_lookup (app : ShutterApp) (req : RequestQuery) (u : URL) (n : Nat)
    (hn : n < 2 ^ 64)
    (hparse : app.urlParse req.Path = .ok u)
    (hclean : u.Scheme = "" ∧ u.Opaque = "" ∧ u.User = "" ∧ u.Host = "" ∧ u.Fragment = "")
    (hpath : u.Path = "/configs/")
    (hidx : (app.urlQuery u).Get "batchIndex" = toString n) :
    (n < 2 ^ 63 →
      (Query app req).2 = [n] ∧
      ∀ bytes, app.protoMarshal (app.Message (app.getConfig n)) = .ok bytes →
        (Query app req).1 = { Code := 0, Log := "", Value := bytes }) ∧
    (2 ^ 63 ≤ n →
      Query app req = (makeQueryErrorResponse "batch index not valid integer", []) ∧
      (Query app req).1.Code = 1 ∧ (Query app req).1.Value = [] ∧ (Query app req).2 = []) := by
  rw [Query_of_configs app req u hparse hclean hpath]
  constructor
  · intro hsmall
    have hu : toUint64 (n : Int) = n := toUint64_ofNat n hn
    have hnn : ¬ ((n : Int) < 0) := by omega
    unfold queryBatchConfig
    simp only [hidx, repr_ne_empty n, if_false, Atoi_repr n hsmall, hnn, hu]
    constructor
    · split <;> rfl
    · intro bytes hb
      rw [hb]
  · intro hlarge
    have hq : queryBatchConfig app (app.urlQuery u) =
        (makeQueryErrorResponse "batch index not valid integer", []) := by
      unfold queryBatchConfig
      simp only [hidx, repr_ne_empty n, if_false, Atoi_repr_range n hlarge hn]
    rw [hq]
    exact ⟨rfl, rfl, rfl, rfl⟩

/-- C7, amended, at concrete requests: `/configs/?batchIndex=12` looks up index 12 and returns
its serialization, and `/configs/?batchIndex=18446744073709551615` (the largest `uint64`) is
refused without a lookup. -/
theorem Query_config_lookup_witness :
    ((Query exampleApp ⟨"/configs/?batchIndex=12"⟩).2 = [12] ∧
      (Query exampleApp ⟨"/configs/?batchIndex=12"⟩).1 =
        { Code := 0, Log := "", Value := [49, 50] }) ∧
    Query exampleApp ⟨"/configs/?batchIndex=18446744073709551615"⟩ =
      (makeQueryErrorResponse "batch index not valid integer", []) :=
  have h := (Query_config_lookup exampleApp ⟨"/configs/?batchIndex=12"⟩
    ⟨"", "", "", "", "/configs/", "batchIndex=12", ""⟩ 12 (by norm_num) rfl (by decide) rfl
    (by decide)).1 (by norm_num)
  have h2 := (Query_config_lookup exampleApp ⟨"/configs/?batchIndex=18446744073709551615"⟩
    ⟨"", "", "", "", "/configs/", "batchIndex=18446744073709551615", ""⟩ 18446744073709551615
    (by norm_num) rfl (by decide) rfl (by decide)).2 (by norm_num)
  ⟨⟨h.1, h.2 [49, 50] (by decide)⟩, h2.1⟩

end Shutter.App

namespace Shutter.Keyper

theorem tmppath_ne (p : String) : p ++ ".tmp" ≠ p := by
  intro h
  have hl := congrArg String.length h
  rw [String.length_append] at hl
  have h4 : (".tmp" : String).length = 4 := by decide
  omega

theorem write_other (fs : FileSystem) (p q : String) (c : List UInt8) (h : q ≠ p) :
    fs.write p c q = fs q := by
  simp [FileSystem.write, h]

/-- The frame of `saveState`. Paths other than `state.gob.tmp` and `state.gob` are never
changed; every file operation is on `state.gob.tmp`, the rename of `state.gob.tmp` onto
`state.gob` apart, which is attempted only after create, encode and sync succeeded; when create,
encode or sync fails that error is returned, and whenever an error is returned `state.gob` has
the content it had before; when `nil` is returned `state.gob` holds the complete encoding of
`{State, Shutter, MainChain}`. -/
theorem saveState_frame {σ sh mc ε : Type} (lib : SnapshotLib σ sh mc ε) (os : SaveOutcome ε)
    (kpr : Keyper2 σ sh mc) (fs : FileSystem) :
    (∀ p, p ≠ kpr.gobpath lib ++ ".tmp" → p ≠ kpr.gobpath lib →
      (kpr.saveState lib os fs).fs p = fs p) ∧
    (∀ op ∈ (kpr.saveState lib os fs).ops,
      op = .create (kpr.gobpath lib ++ ".tmp") ∨
      (∃ c, op = .write (kpr.gobpath lib ++ ".tmp") c) ∨
      op = .sync (kpr.gobpath lib ++ ".tmp") ∨
      op = .close (kpr.gobpath lib ++ ".tmp") ∨
      op = .rename (kpr.gobpath lib ++ ".tmp") (kpr.gobpath lib)) ∧
    (FileOp.rename (kpr.gobpath lib ++ ".tmp") (kpr.gobpath lib) ∈ (kpr.saveState lib os fs).ops →
      os.create = none ∧ os.encode = none ∧ os.sync = none) ∧
    (∀ e, os.create = some e → (kpr.saveState lib os fs).err = some e) ∧
    (∀ e w, os.create = none → os.encode = some (e, w) →
      (kpr.saveState lib os fs).err = some e) ∧
    (∀ e, os.create = none → os.encode = none → os.sync = some e →
      (kpr.saveState lib os fs).err = some e) ∧
    ((kpr.saveState lib os fs).err ≠ none →
      (kpr.saveState lib os fs).fs (kpr.gobpath lib) = fs (kpr.gobpath lib)) ∧
    ((kpr.saveState lib os fs).err = none →
      (kpr.saveState lib os fs).fs (kpr.gobpath lib) =
        some (lib.gobEncode
          { State := kpr.State, Shutter := kpr.Shutter, MainChain := kpr.MainChain })) := by
  have hne : kpr.gobpath lib ≠ kpr.gobpath lib ++ ".tmp" := fun h => tmppath_ne _ h.symm
  unfold Keyper2.saveState
  rcases hc : os.create with _ | ec
  · rcases he : os.encode with _ | ⟨ee, w⟩
    · rcases hs : os.sync with _ | es
      · rcases hr : os.rename with _ | er
        · simp only
          refine ⟨?_, ?_, ?_, ?_, ?_, ?_, ?_, ?_⟩
          · intro p h1 h2
            simp [FileSystem.rename, FileSystem.write, h1, h2]
          · intro op hop
            simp only [List.mem_cons, List.mem_singleton, List.mem_nil_iff, or_false] at hop
            rcases hop with h | h | h | h | h
            · exact Or.inl h
            · exact Or.inr (Or.inl ⟨_, h⟩)
            · exact Or.inr (Or.inr (Or.inl h))
            · exact Or.inr (Or.inr (Or.inr (Or.inr h)))
            · exact Or.inr (Or.inr (Or.inr (Or.inl h)))
          · intro _; exact ⟨trivial, trivial, trivial⟩
          · intro e h; simp at h
          · intro e w _ h; simp at h
          · intro e _ _ h; simp at h
          · intro h; simp at h
          · intro _
            simp [FileSystem.rename, FileSystem.write]
        · simp only
          refine ⟨?_, ?_, ?_, ?_, ?_, ?_, ?_, ?_⟩
          · intro p h1 h2
            simp [FileSystem.write, h1]
          · intro op hop
            simp only [List.mem_cons, List.mem_singleton, List.mem_nil_iff, or_false] at hop
            rcases hop with h | h | h | h | h
            · exact Or.inl h
            · exact Or.inr (Or.inl ⟨_, h⟩)
            · exact Or.inr (Or.inr (Or.inl h))
            · exact Or.inr (Or.inr (Or.inr (Or.inr h)))
            · exact Or.inr (Or.inr (Or.inr (Or.inl h)))
          · intro _; exact ⟨trivial, trivial, trivial⟩
          · intro e h; simp at h
          · intro e w _ h; simp at h
          · intro e _ _ h; simp at h
          · intro _
            simp [FileSystem.write, hne]
          · intro h; simp at h
      · simp only
        refine ⟨?_, ?_, ?_, ?_, ?_, ?_, ?_, ?_⟩
        · intro p h1 h2
          simp [FileSystem.write, h1]
        · intro op hop
          simp only [List.mem_cons, List.mem_singleton, List.mem_nil_iff, or_false] at hop
          rcases hop with h | h | h | h
          · exact Or.inl h
          · exact Or.inr (Or.inl ⟨_, h⟩)
          · exact Or.inr (Or.inr (Or.inl h))
          · exact Or.inr (Or.inr (Or.inr (Or.inl h)))
        · intro h; simp at h
        · intro e h; simp at h
        · intro e w _ h; simp at h
        · intro e _ _ h; simp only [Option.some.injEq] at h; rw [h]
        · intro _
          simp [FileSystem.write, hne]
        · intro h; simp at h
    · simp only
      refine ⟨?_, ?_, ?_, ?_, ?_, ?_, ?_, ?_⟩
      · intro p h1 h2
        simp [FileSystem.write, h1]
      · intro op hop
        simp only [List.mem_cons, List.mem_singleton, List.mem_nil_iff, or_false] at hop
        rcases hop with h | h | h
        · exact Or.inl h
        · exact Or.inr (Or.inl ⟨_, h⟩)
        · exact Or.inr (Or.inr (Or.inr (Or.inl h)))
      · intro h; simp at h
      · intro e h; simp at h
      · intro e w' _ h
        simp only [Option.some.injEq, Prod.mk.injEq] at h
        rw [h.1]
      · intro e _ h; simp at h
      · intro _
        simp [FileSystem.write, hne]
      · intro h; simp at h
  · simp only
    refine ⟨?_, ?_, ?_, ?_, ?_, ?_, ?_, ?_⟩
    · intro p _ _; trivial
    · intro op hop
      simp only [List.mem_singleton] at hop
      exact Or.inl hop
    · intro h; simp at h
    · intro e h; simp only [Option.some.injEq] at h; rw [h]
    · intro e w h; simp at h
    · intro e h; simp at h
    · intro _; trivial
    · intro h; simp at h

/-- What `saveState` returns, leaves in the file system and does, outcome by outcome: the first
failing call among create, encode, sync and rename ends it with that error, and the rename is
what moves the complete encoding from `state.gob.tmp` to `state.gob`. -/
theorem saveState_cases {σ sh mc ε : Type} (lib : SnapshotLib σ sh mc ε) (os : SaveOutcome ε)
    (kpr : Keyper2 σ sh mc) (fs : FileSystem) :
    (∀ e, os.create = some e →
      kpr.saveState lib os fs = ⟨some e, fs, [.create (kpr.gobpath lib ++ ".tmp")]⟩) ∧
    (∀ e w, os.create = none → os.encode = some (e, w) →
      kpr.saveState lib os fs =
        ⟨some e, (fs.write (kpr.gobpath lib ++ ".tmp") []).write (kpr.gobpath lib ++ ".tmp") w,
          [.create (kpr.gobpath lib ++ ".tmp"), .write (kpr.gobpath lib ++ ".tmp") w,
            .close (kpr.gobpath lib ++ ".tmp")]⟩) ∧
    (∀ e, os.create = none → os.encode = none → os.sync = some e →
      kpr.saveState lib os fs =
        ⟨some e,
          (fs.write (kpr.gobpath lib ++ ".tmp") []).write (kpr.gobpath lib ++ ".tmp")
            (lib.gobEncode
              { State := kpr.State, Shutter := kpr.Shutter, MainChain := kpr.MainChain }),
          [.create (kpr.gobpath lib ++ ".tmp"),
            .write (kpr.gobpath lib ++ ".tmp") (lib.gobEncode
              { State := kpr.State, Shutter := kpr.Shutter, MainChain := kpr.MainChain }),
            .sync (kpr.gobpath lib ++ ".tmp"), .close (kpr.gobpath lib ++ ".tmp")]⟩) ∧
    (∀ e, os.create = none → os.encode = none → os.sync = none → os.rename = some e →
      kpr.saveState lib os fs =
        ⟨some e,
          (fs.write (kpr.gobpath lib ++ ".tmp") []).write (kpr.gobpath lib ++ ".tmp")
            (lib.gobEncode
              { State := kpr.State, Shutter := kpr.Shutter, MainChain := kpr.MainChain }),
          [.create (kpr.gobpath lib ++ ".tmp"),
            .write (kpr.gobpath lib ++ ".tmp") (lib.gobEncode
              { State := kpr.State, Shutter := kpr.Shutter, MainChain := kpr.MainChain }),
            .sync (kpr.gobpath lib ++ ".tmp"),
            .rename (kpr.gobpath lib ++ ".tmp") (kpr.gobpath lib),
            .close (kpr.gobpath lib ++ ".tmp")]⟩) ∧
    (os.create = none → os.encode = none → os.sync = none → os.rename = none →
      kpr.saveState lib os fs =
        ⟨none,
          ((fs.write (kpr.gobpath lib ++ ".tmp") []).write (kpr.gobpath lib ++ ".tmp")
            (lib.gobEncode
              { State := kpr.State, Shutter := kpr.Shutter, MainChain := kpr.MainChain })).rename
            (kpr.gobpath lib ++ ".tmp") (kpr.gobpath lib),
          [.create (kpr.gobpath lib ++ ".tmp"),
            .write (kpr.gobpath lib ++ ".tmp") (lib.gobEncode
              { State := kpr.State, Shutter := kpr.Shutter, MainChain := kpr.MainChain }),
            .sync (kpr.gobpath lib ++ ".tmp"),
            .rename (kpr.gobpath lib ++ ".tmp") (kpr.gobpath lib),
            .close (kpr.gobpath lib ++ ".tmp")]⟩) := by
  refine ⟨?_, ?_, ?_, ?_, ?_⟩
  · intro e h1
    unfold Keyper2.saveState
    simp only [h1]
  · intro e w h1 h2
    unfold Keyper2.saveState
    simp only [h1, h2]
  · intro e h1 h2 h3
    unfold Keyper2.saveState
    simp only [h1, h2, h3]
  · intro e h1 h2 h3 h4
    unfold Keyper2.saveState
    simp only [h1, h2, h3, h4]
  · intro h1 h2 h3 h4
    unfold Keyper2.saveState
    simp only [h1, h2, h3, h4]

/-- A `saveState` that returns `nil` met no failing call. -/
theorem saveState_ok_outcome {σ sh mc ε : Type} (lib : SnapshotLib σ sh mc ε)
    (os : SaveOutcome ε) (kpr : Keyper2 σ sh mc) (fs : FileSystem)
    (h : (kpr.saveState lib os fs).err = none) :
    os.create = none ∧ os.encode = none ∧ os.sync = none ∧ os.rename = none := by
  obtain ⟨c1, c2, c3, c4, -⟩ := saveState_cases lib os kpr fs
  rcases hc : os.create with _ | e
  · rcases he : os.encode with _ | ⟨e, w⟩
    · rcases hs : os.sync with _ | e
      · rcases hr : os.rename with _ | e
        · exact ⟨rfl, rfl, rfl, rfl⟩
        · rw [c4 e hc he hs hr] at h; simp at h
      · rw [c3 e hc he hs] at h; simp at h
    · rw [c2 e w hc he] at h; simp at h
  · rw [c1 e hc] at h; simp at h

/-- C8: `saveState` is atomic on `state.gob`. Paths other than `state.gob.tmp` and `state.gob`
are never changed; every file operation is on `state.gob.tmp`, the rename of `state.gob.tmp`
onto `state.gob` apart, which is attempted only after create, encode and sync succeeded; when
create, encode or sync fails that error is returned, and whenever an error is returned
`state.gob` has the content it had before; when `nil` is returned `state.gob` holds the complete
encoding of `{State, Shutter, MainChain}`. The result is fixed outcome by outcome (first failing
call among create, encode, sync, rename, or none). `state.gob` differs from before only when
`nil` is returned and the rename of `state.gob.tmp` onto `state.gob` is among the operations;
and when `nil` is returned the operations are exactly create, write of the complete encoding,
sync, rename, close, the file system is the one these operations produce when performed in order
on the file system before, what `state.gob` holds is what `state.gob.tmp` held right before the
rename, and `state.gob.tmp` is gone. -/
theorem saveState_atomic {σ sh mc ε : Type} (lib : SnapshotLib σ sh mc ε) (os : SaveOutcome ε)
    (kpr : Keyper2 σ sh mc) (fs : FileSystem) :
    (∀ p, p ≠ kpr.gobpath lib ++ ".tmp" → p ≠ kpr.gobpath lib →
      (kpr.saveState lib os fs).fs p = fs p) ∧
    (∀ op ∈ (kpr.saveState lib os fs).ops,
      op = .create (kpr.gobpath lib ++ ".tmp") ∨
      (∃ c, op = .write (kpr.gobpath lib ++ ".tmp") c) ∨
      op = .sync (kpr.gobpath lib ++ ".tmp") ∨
      op = .close (kpr.gobpath lib ++ ".tmp") ∨
      op = .rename (kpr.gobpath lib ++ ".tmp") (kpr.gobpath lib)) ∧
    (FileOp.rename (kpr.gobpath lib ++ ".tmp") (kpr.gobpath lib) ∈ (kpr.saveState lib os fs).ops →
      os.create = none ∧ os.encode = none ∧ os.sync = none) ∧
    (∀ e, os.create = some e → (kpr.saveState lib os fs).err = some e) ∧
    (∀ e w, os.create = none → os.encode = some (e, w) →
      (kpr.saveState lib os fs).err = some e) ∧
    (∀ e, os.create = none → os.encode = none → os.sync = some e →
      (kpr.saveState lib os fs).err = some e) ∧
    ((kpr.saveState lib os fs).err ≠ none →
      (kpr.saveState lib os fs).fs (kpr.gobpath lib) = fs (kpr.gobpath lib)) ∧
    ((kpr.saveState lib os fs).err = none →
      (kpr.saveState lib os fs).fs (kpr.gobpath lib) =
        some (lib.gobEncode
          { State := kpr.State, Shutter := kpr.Shutter, MainChain := kpr.MainChain })) ∧
    (∀ e, os.create = some e →
      kpr.saveState lib os fs = ⟨some e, fs, [.create (kpr.gobpath lib ++ ".tmp")]⟩) ∧
    (∀ e w, os.create = none → os.encode = some (e, w) →
      kpr.saveState lib os fs =
        ⟨some e, (fs.write (kpr.gobpath lib ++ ".tmp") []).write (kpr.gobpath lib ++ ".tmp") w,
          [.create (kpr.gobpath lib ++ ".tmp"), .write (kpr.gobpath lib ++ ".tmp") w,
            .close (kpr.gobpath lib ++ ".tmp")]⟩) ∧
    (∀ e, os.create = none → os.encode = none → os.sync = some e →
      kpr.saveState lib os fs =
        ⟨some e,
          (fs.write (kpr.gobpath lib ++ ".tmp") []).write (kpr.gobpath lib ++ ".tmp")
            (lib.gobEncode
              { State := kpr.State, Shutter := kpr.Shutter, MainChain := kpr.MainChain }),
          [.create (kpr.gobpath lib ++ ".tmp"),
            .write (kpr.gobpath lib ++ ".tmp") (lib.gobEncode
              { State := kpr.State, Shutter := kpr.Shutter, MainChain := kpr.MainChain }),
            .sync (kpr.gobpath lib ++ ".tmp"), .close (kpr.gobpath lib ++ ".tmp")]⟩) ∧
    (∀ e, os.create = none → os.encode = none → os.sync = none → os.rename = some e →
      kpr.saveState lib os fs =
        ⟨some e,
          (fs.write (kpr.gobpath lib ++ ".tmp") []).write (kpr.gobpath lib ++ ".tmp")
            (lib.gobEncode
              { State := kpr.State, Shutter := kpr.Shutter, MainChain := kpr.MainChain }),
          [.create (kpr.gobpath lib ++ ".tmp"),
            .write (kpr.gobpath lib ++ ".tmp") (lib.gobEncode
              { State := kpr.State, Shutter := kpr.Shutter, MainChain := kpr.MainChain }),
            .sync (kpr.gobpath lib ++ ".tmp"),
            .rename (kpr.gobpath lib ++ ".tmp") (kpr.gobpath lib),
            .close (kpr.gobpath lib ++ ".tmp")]⟩) ∧
    ((kpr.saveState lib os fs).fs (kpr.gobpath lib) ≠ fs (kpr.gobpath lib) →
      (kpr.saveState lib os fs).err = none ∧
      FileOp.rename (kpr.gobpath lib ++ ".tmp") (kpr.gobpath lib) ∈
        (kpr.saveState lib os fs).ops) ∧
    ((kpr.saveState lib os fs).err = none →
      (kpr.saveState lib os fs).ops =
        [.create (kpr.gobpath lib ++ ".tmp"),
          .write (kpr.gobpath lib ++ ".tmp") (lib.gobEncode
            { State := kpr.State, Shutter := kpr.Shutter, MainChain := kpr.MainChain }),
          .sync (kpr.gobpath lib ++ ".tmp"),
          .rename (kpr.gobpath lib ++ ".tmp") (kpr.gobpath lib),
          .close (kpr.gobpath lib ++ ".tmp")] ∧
      (kpr.saveState lib os fs).fs = replayOps (kpr.saveState lib os fs).ops fs ∧
      (kpr.saveState lib os fs).fs (kpr.gobpath lib) =
        replayOps
          [.create (kpr.gobpath lib ++ ".tmp"),
            .write (kpr.gobpath lib ++ ".tmp") (lib.gobEncode
              { State := kpr.State, Shutter := kpr.Shutter, MainChain := kpr.MainChain }),
            .sync (kpr.gobpath lib ++ ".tmp")] fs (kpr.gobpath lib ++ ".tmp") ∧
      (kpr.saveState lib os fs).fs (kpr.gobpath lib ++ ".tmp") = none) := by
  obtain ⟨a1, a2, a3, a4, a5, a6, a7, a8⟩ := saveState_frame lib os kpr fs
  obtain ⟨c1, c2, c3, c4, c5⟩ := saveState_cases lib os kpr fs
  have hne : kpr.gobpath lib ≠ kpr.gobpath lib ++ ".tmp" := fun h => tmppath_ne _ h.symm
  refine ⟨a1, a2, a3, a4, a5, a6, a7, a8, c1, c2, c3, c4, ?_, ?_⟩
  · intro hchg
    have herr : (kpr.saveState lib os fs).err = none := by
      by_contra hcon
      exact hchg (a7 hcon)
    obtain ⟨h1, h2, h3, h4⟩ := saveState_ok_outcome lib os kpr fs herr
    refine ⟨herr, ?_⟩
    rw [c5 h1 h2 h3 h4]
    simp
  · intro herr
    obtain ⟨h1, h2, h3, h4⟩ := saveState_ok_outcome lib os kpr fs herr
    rw [c5 h1 h2 h3 h4]
    refine ⟨rfl, rfl, ?_, ?_⟩
    · simp [replayOps, FileOp.effect, FileSystem.rename, FileSystem.write]
    · simp [FileSystem.rename, FileSystem.write, hne.symm]

/-- C8 at a concrete input: an encoder failing after one byte leaves `db/state.gob` with its
old content and returns the error; a run without failure leaves the new encoding there. -/
theorem saveState_atomic_witness :
    ((⟨⟨"db"⟩, 1, 2, 3, false⟩ : Keyper2 UInt8 UInt8 UInt8).saveState exampleLib
        ⟨none, some ("disk full", [1]), none, none⟩
        (fun p => if p = "db/state.gob" then some [7, 8, 9] else none)).fs "db/state.gob" =
      some [7, 8, 9] ∧
    ((⟨⟨"db"⟩, 1, 2, 3, false⟩ : Keyper2 UInt8 UInt8 UInt8).saveState exampleLib
        ⟨none, none, none, none⟩
        (fun p => if p = "db/state.gob" then some [7, 8, 9] else none)).fs "db/state.gob" =
      some [1, 2, 3] :=
  ⟨(saveState_atomic exampleLib ⟨none, some ("disk full", [1]), none, none⟩
      (⟨⟨"db"⟩, 1, 2, 3, false⟩ : Keyper2 UInt8 UInt8 UInt8)
      (fun p => if p = "db/state.gob" then some [7, 8, 9] else none)).2.2.2.2.2.2.1 (by decide),
   (saveState_atomic exampleLib ⟨none, none, none, none⟩
      (⟨⟨"db"⟩, 1, 2, 3, false⟩ : Keyper2 UInt8 UInt8 UInt8)
      (fun p => if p = "db/state.gob" then some [7, 8, 9] else none)).2.2.2.2.2.2.2.1
      (by decide)⟩

/-- C9: `LoadState` is all or nothing. When `os.Open` reports that the file does not exist it
returns `nil` and the keyper is unchanged; when `os.Open` fails otherwise it returns that error
and the keyper is unchanged; when the file opens, either the decoder succeeds, `nil` is returned
and `State`, `Shutter` and `MainChain` are those of the decoded snapshot (the other fields
unchanged), or the decoder's error is returned and the keyper is unchanged. A returned error
always comes with an unchanged keyper. -/
theorem LoadState_all_or_nothing {σ sh mc ε : Type} (lib : SnapshotLib σ sh mc ε)
    (osOpen : String → OpenResult ε) (kpr : Keyper2 σ sh mc) :
    (∀ e, osOpen (kpr.gobpath lib) = .notExist e → kpr.LoadState lib osOpen = (none, kpr)) ∧
    (∀ e, osOpen (kpr.gobpath lib) = .failed e → kpr.LoadState lib osOpen = (some e, kpr)) ∧
    (∀ c, osOpen (kpr.gobpath lib) = .opened c →
      (∃ st, lib.gobDecode c = .ok st ∧
        kpr.LoadState lib osOpen =
          (none, { Config := kpr.Config, State := st.State, Shutter := st.Shutter,
                   MainChain := st.MainChain, Interactive := kpr.Interactive })) ∨
      (∃ e, lib.gobDecode c = .error e ∧ kpr.LoadState lib osOpen = (some e, kpr))) ∧
    ((kpr.LoadState lib osOpen).1 ≠ none → (kpr.LoadState lib osOpen).2 = kpr) := by
  unfold Keyper2.LoadState
  refine ⟨?_, ?_, ?_, ?_⟩
  · intro e h; simp only [h]
  · intro e h; simp only [h]
  · intro c h
    simp only [h]
    cases hd : lib.gobDecode c with
    | error e => exact Or.inr ⟨e, rfl, rfl⟩
    | ok st => exact Or.inl ⟨st, rfl, rfl⟩
  · intro h
    simp only at h ⊢
    split
    · rfl
    · rfl
    · rename_i c hc
      rw [hc] at h
      simp only at h
      split
      · rfl
      · rename_i st hst
        rw [hst] at h
        exact absurd rfl h

/-- C9 at concrete inputs: a truncated snapshot file gives an error and leaves the keyper as it
was. -/
theorem LoadState_all_or_nothing_witness :
    ((⟨⟨"db"⟩, 1, 2, 3, false⟩ : Keyper2 UInt8 UInt8 UInt8).LoadState exampleLib
      (fun _ => OpenResult.opened [7, 8])).2 = ⟨⟨"db"⟩, 1, 2, 3, false⟩ :=
  (LoadState_all_or_nothing exampleLib (fun _ => OpenResult.opened [7, 8])
    (⟨⟨"db"⟩, 1, 2, 3, false⟩ : Keyper2 UInt8 UInt8 UInt8)).2.2.2
    (by simp [Keyper2.LoadState, exampleLib])

end Shutter.Keyper

namespace Shutter.Txbatch

theorem wrapInt64_of_range (z : Int) (hlo : -2 ^ 63 ≤ z) (hhi : z < 2 ^ 63) :
    wrapInt64 z = z := by
  unfold wrapInt64
  omega

theorem bigInt64_of_range (x : Int) (hlo : -2 ^ 63 ≤ x) (hhi : x < 2 ^ 63) :
    bigInt64 x = x := by
  unfold bigInt64 wrapInt64
  simp only
  split <;> omega

theorem Add_nonce {κ π τ ρ : Type} (b : TXBatch κ π τ ρ) (tx : τ)
    (hlo : -2 ^ 63 ≤ b.TransactOpts.Nonce) (hhi : b.TransactOpts.Nonce + 1 < 2 ^ 63) :
    (b.Add tx).TransactOpts.Nonce = b.TransactOpts.Nonce + 1 := by
  show wrapInt64 (bigInt64 b.TransactOpts.Nonce + 1) = _
  rw [bigInt64_of_range _ hlo (by omega), wrapInt64_of_range _ (by omega) hhi]

theorem addAll_frame {κ π τ ρ : Type} (b : TXBatch κ π τ ρ) (txs : List τ) :
    (b.addAll txs).transactions = b.transactions ++ txs ∧
    (b.addAll txs).Ethclient = b.Ethclient ∧ (b.addAll txs).key = b.key ∧
    (b.addAll txs).TransactOpts.rest = b.TransactOpts.rest := by
  induction txs generalizing b with
  | nil => simp [TXBatch.addAll]
  | cons t ts ih =>
    have h := ih (b.Add t)
    simp only [TXBatch.addAll, List.foldl_cons] at h ⊢
    obtain ⟨h1, h2, h3, h4⟩ := h
    refine ⟨?_, ?_, ?_, ?_⟩
    · rw [h1]; simp [TXBatch.Add]
    · rw [h2]; rfl
    · rw [h3]; rfl
    · rw [h4]; rfl

theorem addAll_nonce {κ π τ ρ : Type} (b : TXBatch κ π τ ρ) (txs : List τ)
    (hlo : -2 ^ 63 ≤ b.TransactOpts.Nonce)
    (hhi : b.TransactOpts.Nonce + txs.length < 2 ^ 63) :
    (b.addAll txs).TransactOpts.Nonce = b.TransactOpts.Nonce + txs.length := by
  induction txs generalizing b with
  | nil => simp [TXBatch.addAll]
  | cons t ts ih =>
    simp only [List.length_cons, Nat.cast_add, Nat.cast_one] at hhi
    have h1 := Add_nonce b t hlo (by omega)
    have h := ih (b.Add t) (by rw [h1]; omega) (by rw [h1]; omega)
    simp only [TXBatch.addAll, List.foldl_cons, List.length_cons, Nat.cast_add,
      Nat.cast_one] at h ⊢
    rw [h, h1]
    omega

/-- C10, at the nonce `2^63 - 1`: one `Add` leaves the nonce at `-2^63`, not at `2^63`. -/
theorem Add_nonce_counterexample :
    ((⟨(), ⟨9223372036854775807, ()⟩, (), []⟩ : TXBatch Unit Unit Nat Unit).addAll
        [7]).TransactOpts.Nonce = -9223372036854775808 ∧
    ((⟨(), ⟨9223372036854775807, ()⟩, (), []⟩ : TXBatch Unit Unit Nat Unit).addAll
        [7]).TransactOpts.Nonce ≠ 9223372036854775807 + (([7] : List Nat).length : Int) := by
  decide

/-- C10, amended: for a batch whose nonce `n0` is an `int64` value and `k` added transactions
with `n0 + k ≤ 2^63 - 1`, the nonce after the `k` calls of `Add` is `n0 + k`, and after the first
`i` of them `n0 + i`; the transaction list is the previous list followed by the added
transactions in order; `Ethclient`, `key` and the other transaction options are unchanged. -/
theorem Add_nonce_sequence {κ π τ ρ : Type} (b : TXBatch κ π τ ρ) (txs : List τ)
    (hlo : -2 ^ 63 ≤ b.TransactOpts.Nonce)
    (hhi : b.TransactOpts.Nonce + txs.length < 2 ^ 63) :
    (b.addAll txs).TransactOpts.Nonce = b.TransactOpts.Nonce + txs.length ∧
    (∀ i, i ≤ txs.length →
      (b.addAll (txs.take i)).TransactOpts.Nonce = b.TransactOpts.Nonce + i) ∧
    (b.addAll txs).transactions = b.transactions ++ txs ∧
    (b.addAll txs).Ethclient = b.Ethclient ∧ (b.addAll txs).key = b.key ∧
    (b.addAll txs).TransactOpts.rest = b.TransactOpts.rest := by
  refine ⟨addAll_nonce b txs hlo hhi, ?_, addAll_frame b txs⟩
  intro i hi
  have hlen : (txs.take i).length = i := by
    rw [List.length_take]; omega
  have h := addAll_nonce b (txs.take i) hlo (by rw [hlen]; omega)
  rw [hlen] at h
  exact h

/-- C10, amended, at a concrete input: three transactions added from nonce 5 leave the nonce
at 8 and the transactions in the order added. -/
theorem Add_nonce_sequence_witness :
    ((⟨(), ⟨5, ()⟩, (), [10]⟩ : TXBatch Unit Unit Nat Unit).addAll
        [11, 12, 13]).TransactOpts.Nonce = 5 + (([11, 12, 13] : List Nat).length : Int) ∧
    ((⟨(), ⟨5, ()⟩, (), [10]⟩ : TXBatch Unit Unit Nat Unit).addAll
        [11, 12, 13]).transactions = [10] ++ [11, 12, 13] :=
  have h := Add_nonce_sequence (⟨(), ⟨5, ()⟩, (), [10]⟩ : TXBatch Unit Unit Nat Unit)
    [11, 12, 13] (by decide) (by decide)
  ⟨h.1, h.2.2.1⟩

end Shutter.Txbatch

namespace Shutter.Keyper

theorem runActions_cases {σ sh mc α ε ω : Type} (env : CycleEnv σ sh mc α ε ω)
    (acts : List α) (w : ω) :
    ((runActions env acts w).2.2 = none ∧
      (runActions env acts w).1 = acts.map (fun a => Step.run a none)) ∨
    (∃ done a later err, acts = done ++ a :: later ∧
      (runActions env acts w).1 =
        done.map (fun a => Step.run a none) ++ [.run a (some err), .panic err] ∧
      (runActions env acts w).2.2 = some err) := by
  induction acts generalizing w with
  | nil => left; exact ⟨rfl, rfl⟩
  | cons act rest ih =>
    rw [runActions]
    rcases hr : env.Run act w with ⟨_ | err, w1⟩
    · simp only
      rcases ih w1 with ⟨h1, h2⟩ | ⟨done, a, later, err, h1, h2, h3⟩
      · left
        exact ⟨h1, by rw [h2]; rfl⟩
      · right
        refine ⟨act :: done, a, later, err, by rw [h1]; rfl, ?_, h3⟩
        rw [h2]; rfl
    · right
      exact ⟨[], act, rest, err, rfl, rfl, rfl⟩

theorem actionsRun_map_ok {α : Type} (ε : Type) (acts : List α) :
    actionsRun (acts.map (fun a => (Step.run a none : Step α ε))) = acts := by
  induction acts with
  | nil => rfl
  | cons a t ih =>
    simp only [actionsRun, List.map_cons, List.filterMap_cons] at ih ⊢
    rw [ih]

theorem actionsDone_map_ok {α : Type} (ε : Type) (acts : List α) :
    actionsDone (acts.map (fun a => (Step.run a none : Step α ε))) = acts := by
  induction acts with
  | nil => rfl
  | cons a t ih =>
    simp only [actionsDone, List.map_cons, List.filterMap_cons] at ih ⊢
    rw [ih]

theorem actionErrors_map_ok {α : Type} (ε : Type) (acts : List α) :
    actionErrors (acts.map (fun a => (Step.run a none : Step α ε))) = [] := by
  induction acts with
  | nil => rfl
  | cons a t ih =>
    simp only [actionErrors, List.map_cons, List.filterMap_cons] at ih ⊢
    rw [ih]

theorem actionsRun_head {σ sh mc α : Type} (ε : Type) (kpr : Keyper2 σ sh mc) (acts : List α)
    (e : Option ε) (rest : List (Step α ε)) :
    actionsRun (.decide :: shownSteps ε kpr acts ++ .saveState e :: rest) = actionsRun rest := by
  unfold shownSteps
  split <;> simp [actionsRun]

theorem actionsDone_head {σ sh mc α : Type} (ε : Type) (kpr : Keyper2 σ sh mc) (acts : List α)
    (e : Option ε) (rest : List (Step α ε)) :
    actionsDone (.decide :: shownSteps ε kpr acts ++ .saveState e :: rest) = actionsDone rest := by
  unfold shownSteps
  split <;> simp [actionsDone]

theorem actionErrors_head {σ sh mc α : Type} (ε : Type) (kpr : Keyper2 σ sh mc) (acts : List α)
    (e : Option ε) (rest : List (Step α ε)) :
    actionErrors (.decide :: shownSteps ε kpr acts ++ .saveState e :: rest) =
      actionErrors rest := by
  unfold shownSteps
  split <;> simp [actionErrors]

theorem actionsRun_stop {α ε : Type} (done : List α) (a : α) (err : ε) :
    actionsRun (done.map (fun a => (Step.run a none : Step α ε)) ++
      [.run a (some err), .panic err]) = done ++ [a] := by
  have h := actionsRun_map_ok ε done
  simp only [actionsRun, List.filterMap_append] at h ⊢
  rw [h]; rfl

theorem actionsDone_stop {α ε : Type} (done : List α) (a : α) (err : ε) :
    actionsDone (done.map (fun a => (Step.run a none : Step α ε)) ++
      [.run a (some err), .panic err]) = done := by
  have h := actionsDone_map_ok ε done
  simp only [actionsDone, List.filterMap_append] at h ⊢
  rw [h]; simp

theorem actionErrors_stop {α ε : Type} (done : List α) (a : α) (err : ε) :
    actionErrors (done.map (fun a => (Step.run a none : Step α ε)) ++
      [.run a (some err), .panic err]) = [err] := by
  have h := actionErrors_map_ok ε done
  simp only [actionErrors, List.filterMap_append] at h ⊢
  rw [h]; simp

/-- The trace of one `runOneStep`: `decide`, the interactive display, `saveState`, and then one of
three ends: the panic of a failed `saveState`; every action run without error; or the actions up
to the first failing one, and the panic with its error. -/
theorem runOneStep_trace {σ sh mc α ε ω : Type} (env : CycleEnv σ sh mc α ε ω)
    (m : Machine σ sh mc ω) :
    ∃ rest, (runOneStep env m).trace =
        .decide :: shownSteps ε (afterDecide env m) (decided env m).Actions ++
          .saveState ((afterDecide env m).saveState env.lib (env.saveOutcome m.world) m.fs).err
            :: rest ∧
      ((∃ err, ((afterDecide env m).saveState env.lib (env.saveOutcome m.world) m.fs).err =
            some err ∧ rest = [.panic err] ∧ (runOneStep env m).panicked = some err) ∨
       (((afterDecide env m).saveState env.lib (env.saveOutcome m.world) m.fs).err = none ∧
          rest = (decided env m).Actions.map (fun a => Step.run a none) ∧
          (runOneStep env m).panicked = none) ∨
       (((afterDecide env m).saveState env.lib (env.saveOutcome m.world) m.fs).err = none ∧
          ∃ done a later err, (decided env m).Actions = done ++ a :: later ∧
            rest = done.map (fun a => Step.run a none) ++ [.run a (some err), .panic err] ∧
            (runOneStep env m).panicked = some err)) := by
  unfold runOneStep
  simp only
  rcases hs : ((afterDecide env m).saveState env.lib (env.saveOutcome m.world) m.fs).err
    with _ | err
  · simp only
    rcases runActions_cases env (decided env m).Actions m.world with
      ⟨h1, h2⟩ | ⟨done, a, later, err, h1, h2, h3⟩
    · exact ⟨_, rfl, Or.inr (Or.inl ⟨trivial, h2, h1⟩)⟩
    · exact ⟨_, rfl, Or.inr (Or.inr ⟨trivial, done, a, later, err, h1, h2, h3⟩)⟩
  · exact ⟨[.panic err], rfl, Or.inl ⟨err, rfl, rfl, rfl⟩⟩

end Shutter.Keyper

namespace Shutter.Keyper

/-- C11, at two concrete cycles. With the single action `0`, which fails, `saveState` succeeds,
`Run` is called on the whole action list, and yet an action returned an error. With the actions
`1, 2` and a failing `saveState`, no action returned an error and yet no action was run. In both
"the actions run are the whole list if and only if no action returns an error" does not hold. -/
theorem runOneStep_order_counterexample :
    (((afterDecide (exampleCycleEnv [0]) (exampleMachine 0)).saveState
      (exampleCycleEnv [0]).lib ((exampleCycleEnv [0]).saveOutcome (exampleMachine 0).world)
      (exampleMachine 0).fs).err = none ∧
    (runOneStep (exampleCycleEnv [0]) (exampleMachine 0)).trace =
      [.decide, .saveState none, .run 0 (some "action failed"), .panic "action failed"] ∧
    ¬ (actionsRun (runOneStep (exampleCycleEnv [0]) (exampleMachine 0)).trace =
        (decided (exampleCycleEnv [0]) (exampleMachine 0)).Actions ↔
      actionErrors (runOneStep (exampleCycleEnv [0]) (exampleMachine 0)).trace = [])) ∧
    ((runOneStep (exampleSaveFailEnv [1, 2]) (exampleMachine 0)).trace =
      [.decide, .saveState (some "create failed"), .panic "create failed"] ∧
    (decided (exampleSaveFailEnv [1, 2]) (exampleMachine 0)).Actions = [1, 2] ∧
    ¬ (actionsRun (runOneStep (exampleSaveFailEnv [1, 2]) (exampleMachine 0)).trace =
        (decided (exampleSaveFailEnv [1, 2]) (exampleMachine 0)).Actions ↔
      actionErrors (runOneStep (exampleSaveFailEnv [1, 2]) (exampleMachine 0)).trace = []) ∧
    ¬ (actionsDone (runOneStep (exampleSaveFailEnv [1, 2]) (exampleMachine 0)).trace =
        (decided (exampleSaveFailEnv [1, 2]) (exampleMachine 0)).Actions ↔
      actionErrors (runOneStep (exampleSaveFailEnv [1, 2]) (exampleMachine 0)).trace = []) ∧
    ¬ ((runOneStep (exampleSaveFailEnv [1, 2]) (exampleMachine 0)).panicked = none ↔
      actionErrors (runOneStep (exampleSaveFailEnv [1, 2]) (exampleMachine 0)).trace = [])) := by
  decide

/-- C11, amended: in one `runOneStep` the trace is `decide`, then the interactive display, then
`saveState`, then one of three ends: the panic of a failed `saveState` and no action run; every
action of the decider's list run in order without error; or the actions up to the first failing
one run in order, followed by the panic with its error and nothing else. Hence the actions whose
`Run` is called are a prefix of the list (none when `saveState` fails) that ends with the first
failing action, and after a successful `saveState` they are the whole list when no action
returned an error. The actions that returned without error are a prefix too; after a successful
`saveState` they are the whole list if and only if no action returned an error, and in general
if and only if no action returned an error and `saveState` succeeded or the list is empty. The
cycle ends without panic if and only if `saveState` succeeded and no action returned an error.
The keyper and the file system end as decided and saved. -/
theorem runOneStep_order {σ sh mc α ε ω : Type} (env : CycleEnv σ sh mc α ε ω)
    (m : Machine σ sh mc ω) :
    (∃ rest, (runOneStep env m).trace =
        .decide :: shownSteps ε (afterDecide env m) (decided env m).Actions ++
          .saveState ((afterDecide env m).saveState env.lib (env.saveOutcome m.world) m.fs).err
            :: rest ∧
      ((∃ err, ((afterDecide env m).saveState env.lib (env.saveOutcome m.world) m.fs).err =
            some err ∧ rest = [.panic err] ∧ (runOneStep env m).panicked = some err) ∨
       (((afterDecide env m).saveState env.lib (env.saveOutcome m.world) m.fs).err = none ∧
          rest = (decided env m).Actions.map (fun a => Step.run a none) ∧
          (runOneStep env m).panicked = none) ∨
       (((afterDecide env m).saveState env.lib (env.saveOutcome m.world) m.fs).err = none ∧
          ∃ done a later err, (decided env m).Actions = done ++ a :: later ∧
            rest = done.map (fun a => Step.run a none) ++ [.run a (some err), .panic err] ∧
            (runOneStep env m).panicked = some err))) ∧
    (((afterDecide env m).saveState env.lib (env.saveOutcome m.world) m.fs).err ≠ none →
      actionsRun (runOneStep env m).trace = []) ∧
    (∃ later, (decided env m).Actions = actionsRun (runOneStep env m).trace ++ later) ∧
    (∃ later, (decided env m).Actions = actionsDone (runOneStep env m).trace ++ later) ∧
    (((afterDecide env m).saveState env.lib (env.saveOutcome m.world) m.fs).err = none →
      (actionsDone (runOneStep env m).trace = (decided env m).Actions ↔
        actionErrors (runOneStep env m).trace = [])) ∧
    (((afterDecide env m).saveState env.lib (env.saveOutcome m.world) m.fs).err = none →
      ((runOneStep env m).panicked = none ↔ actionErrors (runOneStep env m).trace = [])) ∧
    (runOneStep env m).machine.kpr = afterDecide env m ∧
    (runOneStep env m).machine.fs =
      ((afterDecide env m).saveState env.lib (env.saveOutcome m.world) m.fs).fs ∧
    ((runOneStep env m).panicked = none ↔
      ((afterDecide env m).saveState env.lib (env.saveOutcome m.world) m.fs).err = none ∧
        actionErrors (runOneStep env m).trace = []) ∧
    (actionsDone (runOneStep env m).trace = (decided env m).Actions ↔
      actionErrors (runOneStep env m).trace = [] ∧
        (((afterDecide env m).saveState env.lib (env.saveOutcome m.world) m.fs).err = none ∨
          (decided env m).Actions = [])) ∧
    (((afterDecide env m).saveState env.lib (env.saveOutcome m.world) m.fs).err = none →
      actionErrors (runOneStep env m).trace = [] →
      actionsRun (runOneStep env m).trace = (decided env m).Actions) := by
  refine ⟨runOneStep_trace env m, ?_⟩
  have hframe : (runOneStep env m).machine.kpr = afterDecide env m ∧
      (runOneStep env m).machine.fs =
        ((afterDecide env m).saveState env.lib (env.saveOutcome m.world) m.fs).fs := by
    unfold runOneStep
    simp only
    split <;> exact ⟨rfl, rfl⟩
  obtain ⟨rest, htr, hcases⟩ := runOneStep_trace env m
  rw [htr, actionsRun_head, actionsDone_head, actionErrors_head]
  rcases hcases with ⟨err, hs, hrest, hp⟩ | ⟨hs, hrest, hp⟩ | ⟨hs, done, a, later, err, hacts, hrest, hp⟩
  · rw [hrest, hs, hp]
    refine ⟨fun _ => rfl, ⟨_, rfl⟩, ⟨_, rfl⟩, ?_, ?_, hframe.1, hframe.2, ?_, ?_, ?_⟩
    · intro h; simp at h
    · intro h; simp at h
    · simp
    · show ([] : List α) = (decided env m).Actions ↔ _
      constructor
      · intro h
        exact ⟨rfl, Or.inr h.symm⟩
      · rintro ⟨-, h | h⟩
        · simp at h
        · exact h.symm
    · intro h; simp at h
  · rw [hrest, hs, hp, actionsRun_map_ok, actionsDone_map_ok, actionErrors_map_ok]
    refine ⟨fun h => absurd rfl h, ⟨[], by simp⟩, ⟨[], by simp⟩, ?_, ?_, hframe.1, hframe.2,
      ?_, ?_, ?_⟩
    · intro _; simp
    · intro _; simp
    · simp
    · simp
    · intro _ _; rfl
  · rw [hrest, hs, hp, actionsRun_stop, actionsDone_stop, actionErrors_stop]
    have hdone : ¬ done = (decided env m).Actions := by
      intro h
      rw [hacts] at h
      have hl := congrArg List.length h
      simp at hl
    refine ⟨fun h => absurd rfl h, ⟨later, by rw [hacts]; simp⟩, ⟨a :: later, hacts⟩, ?_, ?_,
      hframe.1, hframe.2, ?_, ?_, ?_⟩
    · intro _
      constructor
      · intro h; exact absurd h hdone
      · intro h; simp at h
    · intro _; simp
    · simp
    · constructor
      · intro h; exact absurd h hdone
      · rintro ⟨h, -⟩; simp at h
    · intro _ h; simp at h

/-- C11, amended, at a concrete cycle: with the actions `1, 0, 2`, of which `0` fails, the
actions `1, 0` are run and `2` is not, only `1` returned without error, and the cycle ends in a
panic. -/
theorem runOneStep_order_witness :
    actionsRun (runOneStep (exampleCycleEnv [1, 0, 2]) (exampleMachine 0)).trace = [1, 0] ∧
    actionsDone (runOneStep (exampleCycleEnv [1, 0, 2]) (exampleMachine 0)).trace = [1] ∧
    ((runOneStep (exampleCycleEnv [1, 0, 2]) (exampleMachine 0)).panicked = none ↔
      actionErrors (runOneStep (exampleCycleEnv [1, 0, 2]) (exampleMachine 0)).trace = []) :=
  ⟨by decide, by decide,
    (runOneStep_order (exampleCycleEnv [1, 0, 2]) (exampleMachine 0)).2.2.2.2.2.1 (by decide)⟩

end Shutter.Keyper

namespace Shutter.Keyper

theorem sync_not_mem_runOneStep {σ sh mc α ε ω : Type} (env : CycleEnv σ sh mc α ε ω)
    (m : Machine σ sh mc ω) (e : Option ε) : Step.sync e ∉ (runOneStep env m).trace := by
  obtain ⟨rest, htr, hcases⟩ := runOneStep_trace env m
  rw [htr]
  have hshown : Step.sync e ∉ shownSteps ε (afterDecide env m) (decided env m).Actions := by
    unfold shownSteps
    split <;> simp
  have hrest : Step.sync e ∉ rest := by
    rcases hcases with ⟨err, _, hrest, _⟩ | ⟨_, hrest, _⟩ | ⟨_, done, a, later, err, _, hrest, _⟩
    · rw [hrest]; simp
    · rw [hrest]; simp
    · rw [hrest]; simp
  simp [hshown, hrest]

theorem runLoop_sync_error {σ sh mc α ε ω : Type} (env : CycleEnv σ sh mc α ε ω) (fuel : Nat)
    (m : Machine σ sh mc ω) (err : ε) (h : Step.sync (some err) ∈ (runLoop env fuel m).1) :
    ∃ pre, (runLoop env fuel m).1 = pre ++ [.sync (some err), .ret err] ∧
      (runLoop env fuel m).2.2 = .returned err := by
  induction fuel generalizing m with
  | zero => simp [runLoop] at h
  | succ fuel ih =>
    rw [runLoop] at h ⊢
    rcases hsync : env.sync m.kpr.Shutter m.kpr.MainChain m.world with ⟨_ | e1, s, c, w⟩
    · rw [hsync] at h
      simp only at h ⊢
      have hno := sync_not_mem_runOneStep env
        ⟨{ m.kpr with Shutter := s, MainChain := c }, m.fs, w⟩ (some err)
      rcases hp : (runOneStep env
        ⟨{ m.kpr with Shutter := s, MainChain := c }, m.fs, w⟩).panicked with _ | e2
      · have ih1 := ih (runOneStep env
          ⟨{ m.kpr with Shutter := s, MainChain := c }, m.fs, w⟩).machine
        rcases hl : runLoop env fuel (runOneStep env
          ⟨{ m.kpr with Shutter := s, MainChain := c }, m.fs, w⟩).machine with ⟨t, m1, st⟩
        rw [hl] at ih1
        rw [hp, hl] at h
        simp only [List.mem_cons, List.mem_append] at h ih1 ⊢
        have hin : Step.sync (some err) ∈ t := by
          rcases h with (h | h) | (h | h)
          · simp at h
          · exact absurd h hno
          · simp at h
          · exact h
        obtain ⟨pre, h1, h2⟩ := ih1 hin
        refine ⟨.sync none :: (runOneStep env
            ⟨{ m.kpr with Shutter := s, MainChain := c }, m.fs, w⟩).trace ++
            .sleep runSleepTime :: pre, ?_, h2⟩
        rw [h1]; simp
      · rw [hp] at h
        simp only [List.mem_cons] at h
        rcases h with h | h
        · simp at h
        · exact absurd h hno
    · rw [hsync] at h
      simp only [List.mem_cons, List.mem_singleton, Step.sync.injEq, Option.some.injEq,
        List.mem_nil_iff, or_false] at h
      rcases h with h | h
      · subst h
        exact ⟨[], rfl, rfl⟩
      · simp at h

/-- C12, at a concrete run: the first cycle completes, the synchronisation of the second cycle
fails, and `Run` returns that error although three more cycles were allowed: the trace ends with
the failed `sync` and the return, with no delay and no further `sync` after it. -/
theorem Run_sync_error_counterexample :
    (Run (exampleCycleEnv [1]) 5 (exampleMachine 1)).1 =
      [.init none, .sync none, .decide, .saveState none, .run 1 none, .sleep 10,
        .sync (some "sync failed"), .ret "sync failed"] ∧
    (Run (exampleCycleEnv [1]) 5 (exampleMachine 1)).2.2 = .returned "sync failed" ∧
    (Run (exampleCycleEnv [1]) 5 (exampleMachine 1)).2.2 ≠ .running := by
  decide

/-- C12, amended: when `sync` returns an error at the start of a cycle, the loop ends there with
the steps `sync`, `return err`: no decision, no `saveState`, no action and no delay, the keyper's
state and the file system as they were, and `Run` returns that error. In a whole run, a failed
`sync` in any cycle is followed only by the return of its error, which is the status of the
run. -/
theorem Run_sync_error {σ sh mc α ε ω : Type} (env : CycleEnv σ sh mc α ε ω) (fuel : Nat)
    (m : Machine σ sh mc ω) :
    (∀ err s c w, env.sync m.kpr.Shutter m.kpr.MainChain m.world = (some err, s, c, w) →
      runLoop env (fuel + 1) m =
        ([.sync (some err), .ret err],
          ⟨{ m.kpr with Shutter := s, MainChain := c }, m.fs, w⟩, .returned err)) ∧
    (∀ err, Step.sync (some err) ∈ (Run env fuel m).1 →
      ∃ pre, (Run env fuel m).1 = pre ++ [.sync (some err), .ret err] ∧
        (Run env fuel m).2.2 = .returned err) := by
  constructor
  · intro err s c w h
    rw [runLoop, h]
  · intro err h
    unfold Run at h ⊢
    rcases hi : env.init m.world with ⟨_ | e1, w⟩
    · rw [hi] at h
      simp only [List.mem_cons] at h ⊢
      rcases h with h | h
      · simp at h
      · obtain ⟨pre, h1, h2⟩ := runLoop_sync_error env fuel _ err h
        exact ⟨.init none :: pre, by rw [h1]; rfl, h2⟩
    · rw [hi] at h
      simp at h

/-- C12, amended, at a concrete run: a synchronisation that fails in the first cycle ends the
run with its error. -/
theorem Run_sync_error_witness :
    runLoop (exampleCycleEnv [1]) 3 (exampleMachine 0) =
      ([.sync (some "sync failed"), .ret "sync failed"],
        ⟨{ (exampleMachine 0).kpr with Shutter := 2, MainChain := 3 }, (exampleMachine 0).fs, 0⟩,
        .returned "sync failed") :=
  (Run_sync_error (exampleCycleEnv [1]) 2 (exampleMachine 0)).1 "sync failed" 2 3 0 rfl

end Shutter.Keyper
